import Mathlib

/-!
Verification development for the py_file_converter HTTP service.

The Python sources under app/ are shallowly embedded below:

* custom_exceptions.py: the inductive type `AppExc` with its status code,
  message and details fields.
* conversion_service.py: the four conversion executors, each embedded as a
  pure function threading an explicit scratch-disk state (`Disk`, a list of
  `FsPath` values).  The third-party engines (pdf2docx, a headless office
  subprocess, fitz/PIL) are black boxes; their observable behaviour is an
  explicit parameter (an `...Engine` structure) giving page counts, exit
  codes, captured stderr, and the points at which the engine raises.  A
  raised engine exception is modelled by `Exc.engineExc rep msg`, carrying
  the Python repr and str of the exception.
* routers/conversion.py and main.py: the four route handlers, composing a
  validator, an executor, the FileResponse with its deferred
  BackgroundTask(os.remove, path) cleanup, and the two exception handlers
  of main.py.
* dependencies/security.py: the `get_api_key` dependency together with the
  APIKeyHeader extraction step (auto_error set to True).  Note that
  conversion.py never declares this dependency on any route, which the
  route embeddings below reflect: they take the configured key list and the
  request header as arguments and never consult them.

File contents are not modelled (only paths and their lifetimes are); a file
write by the service or an engine adds the path to the disk, os.remove
filters it out, and shutil.rmtree filters out a whole subtree.
-/

/-- Embedding of custom_exceptions.py: the two concrete application
exception classes.  Each carries the `details` string passed to its
constructor; `status_code` and `message` are fixed by the class. -/
inductive AppExc where
  | conversionError (details : String)
  | fileValidationError (details : String)
deriving DecidableEq

/-- Status code field set in custom_exceptions.py: 422 for ConversionError,
400 for FileValidationError. -/
def AppExc.statusCode : AppExc → Nat
  | .conversionError _ => 422
  | .fileValidationError _ => 400

/-- Message field set in custom_exceptions.py. -/
def AppExc.message : AppExc → String
  | .conversionError _ => "File conversion failed."
  | .fileValidationError _ => "Invalid file provided."

/-- Details field of an application exception. -/
def AppExc.details : AppExc → String
  | .conversionError d => d
  | .fileValidationError d => d

/-- An exception value as seen by an except-block: either one of the
application exceptions, or some other exception raised by an engine call,
carried as the pair of its Python repr and str renderings. -/
inductive Exc where
  | app (e : AppExc)
  | engineExc (rep : String) (msg : String)
deriving DecidableEq

/-- Python repr of an exception.  AppException.__init__ forwards only the
message to Exception.__init__, so the repr of a ConversionError is the class
name applied to the message alone: the details string does not appear. -/
def reprExc : Exc → String
  | .app (.conversionError _) => "ConversionError(\x27File conversion failed.\x27)"
  | .app (.fileValidationError _) => "FileValidationError(\x27Invalid file provided.\x27)"
  | .engineExc rep _ => rep

/-- Python str of an exception: the single Exception argument, which for an
application exception is its message. -/
def strExc : Exc → String
  | .app e => e.message
  | .engineExc _ msg => msg

/-- An uploaded multipart file: the client-chosen filename, the declared
content type, and the raw bytes. -/
structure UploadFile where
  filename : String
  contentType : String
  content : String
deriving DecidableEq

/-- Scan of a reversed character list used by os.path.splitext: walking the
original string from its end, stop without splitting at a path separator,
and at the first dot return the remaining (still reversed) characters. -/
def splitextScan : List Char → Option (List Char)
  | [] => none
  | c :: rest => if c = '/' then none else if c = '.' then some rest else splitextScan rest

/-- Embedding of os.path.splitext(p)[0] (CPython genericpath._splitext with
the slash separator): split at the last dot of the final component, unless every
character of that component before the dot is itself a dot. -/
def pySplitextRoot (p : String) : String :=
  match splitextScan p.data.reverse with
  | none => p
  | some rootRev =>
      if (rootRev.takeWhile (fun c => c ≠ '/')).any (fun c => c ≠ '.') then
        String.mk rootRev.reverse
      else p

/-- Decimal digit character, mirroring the digits produced by Python str()
on a nonnegative integer. -/
def digitChar : Nat → Char
  | 0 => '0'
  | 1 => '1'
  | 2 => '2'
  | 3 => '3'
  | 4 => '4'
  | 5 => '5'
  | 6 => '6'
  | 7 => '7'
  | 8 => '8'
  | _ => '9'

/-- Numeric value of a decimal digit character. -/
def digitVal (c : Char) : Nat :=
  if c = '0' then 0
  else if c = '1' then 1
  else if c = '2' then 2
  else if c = '3' then 3
  else if c = '4' then 4
  else if c = '5' then 5
  else if c = '6' then 6
  else if c = '7' then 7
  else if c = '8' then 8
  else 9

/-- Fuelled most-significant-first decimal digit list of a natural number;
fuel n+1 always suffices for n. -/
def natDigitsAux : Nat → Nat → List Char
  | 0, _ => []
  | fuel + 1, n =>
      if n < 10 then [digitChar n]
      else natDigitsAux fuel (n / 10) ++ [digitChar (n % 10)]

/-- Embedding of Python str() on a natural number. -/
def natStr (n : Nat) : String :=
  String.mk (natDigitsAux (n + 1) n)

/-- A filesystem path as assembled by the service: the configured scratch
root (settings.TEMP_FILE_DIR), or os.path.join of a parent path and one
component. -/
inductive FsPath where
  | root (dir : String)
  | joined (parent : FsPath) (name : String)
deriving DecidableEq

/-- Whether path p equals dir or lies beneath it; shutil.rmtree(dir)
removes exactly the paths below dir, dir included. -/
def FsPath.isUnder (dir : FsPath) : FsPath → Bool
  | .root d => decide (FsPath.root d = dir)
  | .joined parent name => decide (FsPath.joined parent name = dir) || FsPath.isUnder dir parent

/-- The scratch disk: the list of paths currently present, in creation
order.  Only presence and order matter to the claims; contents do not. -/
abbrev Disk := List FsPath

/-- Creating or overwriting a file or directory: the path becomes present;
an overwrite keeps the single existing entry. -/
def Disk.write (d : Disk) (p : FsPath) : Disk :=
  if p ∈ d then d else d ++ [p]

/-- Embedding of os.remove / the FileResponse background cleanup. -/
def Disk.removeFile (d : Disk) (p : FsPath) : Disk :=
  d.filter (fun q => q ≠ p)

/-- Embedding of shutil.rmtree: recursively delete dir and everything
beneath it. -/
def Disk.rmtree (d : Disk) (dir : FsPath) : Disk :=
  d.filter (fun p => !(FsPath.isUnder dir p))

/-- Files directly inside dir, in creation order; this is how the os.walk
of _processing_task enumerates the rendered page images. -/
def Disk.listDir (d : Disk) (dir : FsPath) : List String :=
  d.filterMap (fun p =>
    match p with
    | .joined parent name => if parent = dir then some name else none
    | .root _ => none)

/-- Allowed image content types of ConversionService._validate_image_files. -/
def allowed_content_types : List String :=
  ["image/jpeg", "image/png", "image/gif", "image/bmp"]

/-- Embedding of ConversionService._validate_pdf_file: a wrong declared
content type raises ConversionError (note: not FileValidationError), with
the message spelled exactly as in the source, typo included. -/
def validate_pdf_file (f : UploadFile) : Except AppExc Unit :=
  if f.contentType ≠ "application/pdf" then
    .error (.conversionError ("Invald file type: " ++ f.contentType ++ ". Only PDF files are accepted."))
  else .ok ()

/-- Embedding of ConversionService._validate_docx_file. -/
def validate_docx_file (f : UploadFile) : Except AppExc Unit :=
  if f.contentType ≠ "application/vnd.openxmlformats-officedocument.wordprocessingml.document" then
    .error (.fileValidationError ("Invalid file type: " ++ f.contentType ++ ". Only DOCX files are accepted."))
  else .ok ()

/-- Embedding of ConversionService._validate_image_files: an empty upload
list is rejected, then each file in order must declare an allowed image
content type. -/
def validate_image_files (files : List UploadFile) : Except AppExc Unit :=
  if files.isEmpty then .error (.fileValidationError ("No files were uploaded."))
  else
    match files.find? (fun f => !(allowed_content_types.contains f.contentType)) with
    | some f => .error (.fileValidationError ("Invalid file type: " ++ f.contentType ++ ". Only images are accepted."))
    | none => .ok ()

deriving instance DecidableEq for Except

/-- Result of one executor invocation: the value returned or exception
raised, the scratch disk after the executor (finally-blocks included), and
the engine calls performed, in order. -/
structure ExecResult where
  result : Except Exc FsPath
  disk : Disk
  engineCalls : List String
deriving DecidableEq

/-- Observable behaviour of the pdf2docx engine for one input: whether
Converter(pdf_path) raises, and whether cv.convert(docx_path) raises, each
carrying the repr and str of the exception.  A failing convert call is
modelled as producing no output file. -/
structure P2DEngine where
  converterRaises : Option (String × String)
  convertRaises : Option (String × String)
deriving DecidableEq

/-- Embedding of ConversionService.convert_pdf_to_docx: validate the
declared content type, allocate the two uuid-named paths under the scratch
root, write the upload, run the engine, wrap any raised exception in a
ConversionError built from its str, and in the finally block remove the
input pdf if it exists. -/
def convert_pdf_to_docx (tempDir uid : String) (f : UploadFile) (eng : P2DEngine)
    (d0 : Disk) : ExecResult :=
  match validate_pdf_file f with
  | .error e => ⟨.error (.app e), d0, []⟩
  | .ok _ =>
    let pdf_path := FsPath.joined (FsPath.root tempDir) (uid ++ ".pdf")
    let docx_path := FsPath.joined (FsPath.root tempDir) (uid ++ ".docx")
    let d1 := (d0.write pdf_path : Disk)
    let body : Except Exc FsPath × Disk × List String :=
      match eng.converterRaises with
      | some (rep, msg) => (.error (.engineExc rep msg), d1, ["Converter"])
      | none =>
        match eng.convertRaises with
        | some (rep, msg) => (.error (.engineExc rep msg), d1, ["Converter", "cv.convert"])
        | none => (.ok docx_path, d1.write docx_path, ["Converter", "cv.convert"])
    let wrapped : Except Exc FsPath :=
      match body.1 with
      | .ok p => .ok p
      | .error e =>
          .error (.app (.conversionError ("An unexpected error occurred during conversion: " ++ strExc e)))
    let d2 := body.2.1
    ⟨wrapped, if pdf_path ∈ d2 then d2.removeFile pdf_path else d2, body.2.2⟩

/-- Observable behaviour of one headless office subprocess run: whether
spawning or communicating raises, the exit code, the captured stderr
decoded as text (empty models empty stderr bytes), and whether the tool
left the expected output pdf on disk. -/
structure LOEngine where
  execRaises : Option (String × String)
  returncode : Int
  stderrText : String
  createsPdf : Bool
deriving DecidableEq

/-- Output path checked by convert_docx_to_pdf, exactly as computed in the
source: os.path.splitext(docx_path)[0] + ".pdf", where docx_path is the
uuid-named input path.  splitext only rewrites the final path component. -/
def expected_pdf_path (tempDir uid : String) : FsPath :=
  FsPath.joined (FsPath.root tempDir) (pySplitextRoot (uid ++ ".docx") ++ ".pdf")

/-- Embedding of ConversionService.convert_docx_to_pdf: validate the
declared content type, write the uuid-named input, run the subprocess; on a
non-zero exit code raise a ConversionError carrying the decoded stderr or
the placeholder; on a zero exit code check that the expected output path
exists and raise if it does not.  The enclosing except-block rewraps every
exception, ConversionError included, into a new ConversionError built from
the repr of the caught exception; the finally block removes the input. -/
def convert_docx_to_pdf (tempDir uid : String) (f : UploadFile) (eng : LOEngine)
    (d0 : Disk) : ExecResult :=
  match validate_docx_file f with
  | .error e => ⟨.error (.app e), d0, []⟩
  | .ok _ =>
    let docx_path := FsPath.joined (FsPath.root tempDir) (uid ++ ".docx")
    let d1 := (d0.write docx_path : Disk)
    let body : Except Exc FsPath × Disk × List String :=
      match eng.execRaises with
      | some (rep, msg) => (.error (.engineExc rep msg), d1, ["libreoffice"])
      | none =>
        let d2 := if eng.createsPdf then d1.write (expected_pdf_path tempDir uid) else d1
        if eng.returncode ≠ 0 then
          let error_message := if eng.stderrText ≠ "" then eng.stderrText else ("Unknown LibreOffice error.")
          (.error (.app (.conversionError ("LibreOffice conversion failed: " ++ error_message))), d2, ["libreoffice"])
        else
          let pdf_path := expected_pdf_path tempDir uid
          if pdf_path ∈ d2 then (.ok pdf_path, d2, ["libreoffice"])
          else (.error (.app (.conversionError ("PDF file was not created after conversion process."))), d2, ["libreoffice"])
    let wrapped : Except Exc FsPath :=
      match body.1 with
      | .ok p => .ok p
      | .error e => .error (.app (.conversionError ("An unexpected error occurred: " ++ reprExc e)))
    let d2 := body.2.1
    ⟨wrapped, if docx_path ∈ d2 then d2.removeFile docx_path else d2, body.2.2⟩

/-- Page size returned by fitz.paper_size for A4, in points. -/
def paper_size_a4 : ℚ × ℚ := (595, 842)

/-- One page of the document built by convert_images_to_pdf: the fixed page
size and the rectangle the image was inserted into, as (x0, y0, x1, y1). -/
structure PdfPage where
  width : ℚ
  height : ℚ
  x0 : ℚ
  y0 : ℚ
  x1 : ℚ
  y1 : ℚ
deriving DecidableEq

/-- Per-image geometry of the loop body of convert_images_to_pdf: the
uniform scale is the minimum of the two axis ratios, the scaled rectangle
is centered on the page.  Arithmetic is over ℚ; the source computes the
same expressions in floating point. -/
def imagePage (pageWidth pageHeight imgWidth imgHeight : ℚ) : PdfPage :=
  let scale_w := pageWidth / imgWidth
  let scale_h := pageHeight / imgHeight
  let scale := min scale_w scale_h
  let final_w := imgWidth * scale
  let final_h := imgHeight * scale
  let x0 := (pageWidth - final_w) / 2
  let y0 := (pageHeight - final_h) / 2
  ⟨pageWidth, pageHeight, x0, y0, x0 + final_w, y0 + final_h⟩

/-- An uploaded image file together with the pixel dimensions PIL decodes
from its bytes (the dimensions are a function of the content alone). -/
structure ImageFile where
  upload : UploadFile
  dims : ℚ × ℚ
deriving DecidableEq

/-- Observable engine behaviour for one images-to-pdf run: whether decoding
some image raises (by 0-based index), and whether pdf_doc.save raises.  A
failing save is modelled as producing no output file. -/
structure I2PEngine where
  decodeRaises : Option (Nat × String × String)
  saveRaises : Option (String × String)
deriving DecidableEq

/-- The per-image loop of the images-to-pdf _processing_task: each
successfully decoded image appends one A4 page with the centered scaled
rectangle; a decode failure at the given index raises there. -/
def imagesLoop (raiseAt : Option (Nat × String × String)) :
    List (ℚ × ℚ) → Nat → List PdfPage → Except Exc Unit × List PdfPage
  | [], _, acc => (.ok (), acc)
  | wh :: rest, idx, acc =>
    match raiseAt with
    | some (i, rep, msg) =>
        if idx = i then (.error (.engineExc rep msg), acc)
        else imagesLoop raiseAt rest (idx + 1)
          (acc ++ [imagePage paper_size_a4.1 paper_size_a4.2 wh.1 wh.2])
    | none =>
        imagesLoop raiseAt rest (idx + 1)
          (acc ++ [imagePage paper_size_a4.1 paper_size_a4.2 wh.1 wh.2])

/-- Result of one images-to-pdf invocation: the outcome, the disk, the
pages of the in-memory document at the moment the run ended, and the
engine calls performed. -/
structure I2PResult where
  result : Except Exc FsPath
  disk : Disk
  pages : List PdfPage
  engineCalls : List String
deriving DecidableEq

/-- Embedding of ConversionService.convert_images_to_pdf: validate every
upload first, then run the in-memory page loop, then save the document to
the single uuid-named output artifact.  Any exception of the task is
rewrapped as a ConversionError built from its repr.  No intermediate files
are written. -/
def convert_images_to_pdf (tempDir uid : String) (files : List ImageFile)
    (eng : I2PEngine) (d0 : Disk) : I2PResult :=
  match validate_image_files (files.map (fun fl => fl.upload)) with
  | .error e => ⟨.error (.app e), d0, [], []⟩
  | .ok _ =>
    let body : Except Exc FsPath × Disk × List PdfPage :=
      match imagesLoop eng.decodeRaises (files.map (fun fl => fl.dims)) 0 [] with
      | (.error e, acc) => (.error e, d0, acc)
      | (.ok _, acc) =>
        let pdf_path := FsPath.joined (FsPath.root tempDir) (uid ++ ".pdf")
        match eng.saveRaises with
        | some (rep, msg) => (.error (.engineExc rep msg), d0, acc)
        | none => (.ok pdf_path, d0.write pdf_path, acc)
    let wrapped : Except Exc FsPath :=
      match body.1 with
      | .ok p => .ok p
      | .error e =>
          .error (.app (.conversionError ("An unexpected error occurred during image to PDF conversion: " ++ reprExc e)))
    ⟨wrapped, body.2.1, body.2.2, ["fitz.open", "pdf_doc.save"]⟩

/-- One page rasterization performed by the pdf-to-images task: the 0-based
page number, the dpi passed to get_pixmap, and the image format of the
saved file. -/
structure RenderEvent where
  pageNum : Nat
  dpi : Nat
  fmt : String
deriving DecidableEq

/-- Observable engine behaviour for one pdf-to-images run: the page count
fitz reports for the opened document, whether fitz.open raises, whether
rendering or saving some page raises (by 0-based page number; nothing is
written for that page), and whether writing some archive entry raises (by
0-based entry index; the archive file itself already exists then). -/
structure P2IEngine where
  pageCount : Nat
  openRaises : Option (String × String)
  renderRaises : Option (Nat × String × String)
  zipWriteRaises : Option (Nat × String × String)
deriving DecidableEq

/-- Path of the rendered image of 0-based page n inside the per-job
directory: f-string page_{page_num + 1}.png of the source. -/
def page_image_path (tempImageDir : FsPath) (n : Nat) : FsPath :=
  FsPath.joined tempImageDir ("page_" ++ natStr (n + 1) ++ ".png")

/-- The page loop of the pdf-to-images _processing_task over the listed
0-based page numbers: each iteration renders at dpi 200 and saves a png
into the per-job directory; a fault at the given page raises there. -/
def renderLoop (tempImageDir : FsPath) (raiseAt : Option (Nat × String × String)) :
    List Nat → Disk → List RenderEvent → Except Exc Unit × Disk × List RenderEvent
  | [], d, evs => (.ok (), d, evs)
  | n :: rest, d, evs =>
    match raiseAt with
    | some (i, rep, msg) =>
        if n = i then (.error (.engineExc rep msg), d, evs)
        else renderLoop tempImageDir raiseAt rest (d.write (page_image_path tempImageDir n))
          (evs ++ [⟨n, 200, "png"⟩])
    | none =>
        renderLoop tempImageDir raiseAt rest (d.write (page_image_path tempImageDir n))
          (evs ++ [⟨n, 200, "png"⟩])

/-- The archive loop of the pdf-to-images _processing_task: walk the listed
filenames in order and add each to the zip under its bare name (arcname is
the filename, so entry names are flat); a fault at the given 0-based index
raises there, keeping the entries already written. -/
def zipLoop (raiseAt : Option (Nat × String × String)) :
    List String → Nat → List String → Except Exc Unit × List String
  | [], _, acc => (.ok (), acc)
  | name :: rest, idx, acc =>
    match raiseAt with
    | some (i, rep, msg) =>
        if idx = i then (.error (.engineExc rep msg), acc)
        else zipLoop raiseAt rest (idx + 1) (acc ++ [name])
    | none => zipLoop raiseAt rest (idx + 1) (acc ++ [name])

/-- Result of one pdf-to-images task run: the outcome, the disk, the
rasterizations performed, and the entry names written into the archive. -/
structure P2ITaskResult where
  result : Except Exc FsPath
  disk : Disk
  renders : List RenderEvent
  zipEntries : List String
deriving DecidableEq

/-- Embedding of the _processing_task of convert_pdf_to_images: create the
per-job directory and allocate the zip path, then inside a try-block open
the document, render every page in order, create the zip file and archive
every file os.walk finds directly in the per-job directory (modelled in
creation order).  The except-block rewraps any exception as a
ConversionError built from its repr; the finally block removes the per-job
directory recursively if it exists.  Nothing ever removes the zip file
here. -/
def processing_task_p2i (tempDir jobId : String) (eng : P2IEngine) (d0 : Disk) :
    P2ITaskResult :=
  let temp_image_dir := FsPath.joined (FsPath.root tempDir) jobId
  let d1 := (d0.write temp_image_dir : Disk)
  let zip_path := FsPath.joined (FsPath.root tempDir) (jobId ++ ".zip")
  let body : Except Exc FsPath × Disk × List RenderEvent × List String :=
    match eng.openRaises with
    | some (rep, msg) => (.error (.engineExc rep msg), d1, [], [])
    | none =>
      match renderLoop temp_image_dir eng.renderRaises (List.range eng.pageCount) d1 [] with
      | (.error e, d2, evs) => (.error e, d2, evs, [])
      | (.ok _, d2, evs) =>
        let d3 := (d2.write zip_path : Disk)
        let names := d2.listDir temp_image_dir
        match zipLoop eng.zipWriteRaises names 0 [] with
        | (.error e, entries) => (.error e, d3, evs, entries)
        | (.ok _, entries) => (.ok zip_path, d3, evs, entries)
  let wrapped : Except Exc FsPath :=
    match body.1 with
    | .ok p => .ok p
    | .error e =>
        .error (.app (.conversionError ("An unexpected error occurred during PDF to image conversion: " ++ reprExc e)))
  let dPre := body.2.1
  let dFin := if temp_image_dir ∈ dPre then dPre.rmtree temp_image_dir else dPre
  ⟨wrapped, dFin, body.2.2.1, body.2.2.2⟩

/-- Embedding of ConversionService.convert_pdf_to_images: validate the
declared content type, read the upload into memory, then run the task in
the threadpool; the surrounding try-block re-raises unchanged. -/
def convert_pdf_to_images_service (tempDir jobId : String) (f : UploadFile)
    (eng : P2IEngine) (d0 : Disk) : P2ITaskResult :=
  match validate_pdf_file f with
  | .error e => ⟨.error (.app e), d0, [], []⟩
  | .ok _ => processing_task_p2i tempDir jobId eng d0

/-- Outcome of the credential dependency of security.py.  With
auto_error set to True on the APIKeyHeader, a missing header is rejected by the
framework before get_api_key runs (HTTP 403, detail Not authenticated); a
present header not in the configured list is rejected by get_api_key with
HTTP 403 and detail Invalid API Key; otherwise the key is returned. -/
inductive AuthOutcome where
  | notAuthenticated
  | invalidKey
  | authorized (key : String)
deriving DecidableEq

/-- Embedding of the api_key_header extraction plus get_api_key check of
security.py, as it would behave if some route declared it. -/
def get_api_key (api_keys_list : List String) (header : Option String) : AuthOutcome :=
  match header with
  | none => .notAuthenticated
  | some k => if api_keys_list.contains k then .authorized k else .invalidKey

/-- An inbound conversion request: the X-API-Key header if present, and the
uploaded file (or files, for images-to-pdf). -/
structure Request where
  apiKeyHeader : Option String
  file : UploadFile
deriving DecidableEq

/-- A response as produced by the route layer: either a FileResponse
streaming the artifact at the given path with a media type and download
filename, or the structured JSON error body produced by the handlers of
main.py. -/
inductive HttpResponse where
  | fileStream (path : FsPath) (mediaType : String) (filename : String)
  | errorJson (status : Nat) (message : String) (details : String)
deriving DecidableEq

/-- Result of handling one request to completion, the disk being the state
after the response was fully sent and any BackgroundTask cleanup ran. -/
structure RouteResult where
  response : HttpResponse
  disk : Disk
  engineCalls : List String
deriving DecidableEq

/-- Mapping of a propagated exception to the response, as installed in
main.py: an AppException keeps its status code, message and details; any
other exception falls to the generic 500 handler. -/
def excToResponse : Exc → HttpResponse
  | .app e => .errorJson e.statusCode e.message e.details
  | .engineExc _ _ => .errorJson 500 ("An unexpected internal server error occurred.") ("Please contact support.")

/-- Embedding of the pdf-to-word route of conversion.py.  The route
declares only the file parameter and the ConversionService dependency and
never the security dependency, so neither the configured key list nor the
request header takes part in handling; both are accepted here only to make
that independence statable.  On success the docx is streamed and then
removed by the BackgroundTask. -/
def convert_pdf_to_word_route (api_keys_list : List String) (tempDir uid : String)
    (req : Request) (eng : P2DEngine) (d0 : Disk) : RouteResult :=
  let r := convert_pdf_to_docx tempDir uid req.file eng d0
  match r.result with
  | .ok p =>
      ⟨.fileStream p ("application/vnd.openxmlformats-officedocument.wordprocessingml.document")
        (pySplitextRoot req.file.filename ++ ".docx"), r.disk.removeFile p, r.engineCalls⟩
  | .error e => ⟨excToResponse e, r.disk, r.engineCalls⟩

/-- Embedding of the word-to-pdf route of conversion.py; like the other
routes it declares no security dependency. -/
def convert_word_to_pdf_route (api_keys_list : List String) (tempDir uid : String)
    (req : Request) (eng : LOEngine) (d0 : Disk) : RouteResult :=
  let r := convert_docx_to_pdf tempDir uid req.file eng d0
  match r.result with
  | .ok p =>
      ⟨.fileStream p ("application/pdf") (pySplitextRoot req.file.filename ++ ".pdf"),
        r.disk.removeFile p, r.engineCalls⟩
  | .error e => ⟨excToResponse e, r.disk, r.engineCalls⟩

/-- Embedding of the images-to-pdf route of conversion.py: the download
filename is the constant converted_images.pdf; no security dependency. -/
def convert_images_to_pdf_route (api_keys_list : List String) (tempDir uid : String)
    (apiKeyHeader : Option String) (files : List ImageFile) (eng : I2PEngine)
    (d0 : Disk) : RouteResult :=
  let r := convert_images_to_pdf tempDir uid files eng d0
  match r.result with
  | .ok p => ⟨.fileStream p ("application/pdf") ("converted_images.pdf"), r.disk.removeFile p, r.engineCalls⟩
  | .error e => ⟨excToResponse e, r.disk, r.engineCalls⟩

/-- Embedding of the pdf-to-images route of conversion.py: on success the
zip is streamed and then removed by the BackgroundTask; on failure the
exception handlers shape the JSON body and no route-level cleanup runs; no
security dependency. -/
def convert_pdf_to_images_route (api_keys_list : List String) (tempDir jobId : String)
    (req : Request) (eng : P2IEngine) (d0 : Disk) : RouteResult :=
  let r := convert_pdf_to_images_service tempDir jobId req.file eng d0
  match r.result with
  | .ok p =>
      ⟨.fileStream p ("application/zip") (pySplitextRoot req.file.filename ++ ".zip"),
        r.disk.removeFile p, []⟩
  | .error e => ⟨excToResponse e, r.disk, []⟩

/-- Whether needle occurs as a contiguous substring of hay, used to state
that a delivered error detail does or does not contain a given text. -/
def strContainsSub (hay needle : String) : Bool :=
  decide (needle.data <:+: hay.data)

/-- Denotation of a most-significant-first decimal digit list back to the
number it renders. -/
def digitsDenote (l : List Char) : Nat :=
  l.foldl (fun a c => 10 * a + digitVal c) 0

/-- Replace only the client-chosen filename of an upload, leaving the
declared content type and the bytes untouched. -/
def renameUpload (g : String → String) (f : UploadFile) : UploadFile :=
  ⟨g f.filename, f.contentType, f.content⟩

/-- Replace only the client-chosen filename of an uploaded image. -/
def renameImageFile (g : String → String) (fl : ImageFile) : ImageFile :=
  ⟨renameUpload g fl.upload, fl.dims⟩

/-- Erase the download filename of a response, keeping everything else;
used to state that the client filename reaches nothing but that field. -/
def HttpResponse.eraseName : HttpResponse → HttpResponse
  | .fileStream p m _ => .fileStream p m ("")
  | .errorJson st m det => .errorJson st m det

theorem digitVal_digitChar (k : Nat) (hk : k < 10) : digitVal (digitChar k) = k := by
  interval_cases k <;> rfl

theorem digitChar_ne_slash (k : Nat) : digitChar k ≠ '/' := by
  unfold digitChar
  split <;> decide

theorem digitsDenote_natDigitsAux (fuel : Nat) :
    ∀ n : Nat, n < 10 ^ fuel → digitsDenote (natDigitsAux fuel n) = n := by
  induction fuel with
  | zero =>
      intro n hn
      simp only [pow_zero, Nat.lt_one_iff] at hn
      subst hn
      rfl
  | succ fuel ih =>
      intro n hn
      by_cases h10 : n < 10
      · simp only [natDigitsAux, if_pos h10, digitsDenote, List.foldl]
        rw [digitVal_digitChar n h10]
        omega
      · have hdiv : n / 10 < 10 ^ fuel := by
          rw [Nat.div_lt_iff_lt_mul (by norm_num)]
          calc n < 10 ^ (fuel + 1) := hn
            _ = 10 ^ fuel * 10 := by ring
        have ihx := ih (n / 10) hdiv
        unfold digitsDenote at ihx ⊢
        rw [natDigitsAux, if_neg h10, List.foldl_append, ihx]
        simp only [List.foldl]
        rw [digitVal_digitChar (n % 10) (Nat.mod_lt _ (by norm_num))]
        omega

theorem natDigitsAux_full_inj {a b : Nat}
    (h : natDigitsAux (a + 1) a = natDigitsAux (b + 1) b) : a = b := by
  have ha : a < 10 ^ (a + 1) :=
    lt_of_lt_of_le (Nat.lt_pow_self (by norm_num) a)
      (Nat.pow_le_pow_right (by norm_num) (Nat.le_succ a))
  have hb : b < 10 ^ (b + 1) :=
    lt_of_lt_of_le (Nat.lt_pow_self (by norm_num) b)
      (Nat.pow_le_pow_right (by norm_num) (Nat.le_succ b))
  have := digitsDenote_natDigitsAux (a + 1) a ha
  rw [h, digitsDenote_natDigitsAux (b + 1) b hb] at this
  omega

theorem mem_natDigitsAux {c : Char} :
    ∀ {fuel n : Nat}, c ∈ natDigitsAux fuel n → ∃ k, c = digitChar k := by
  intro fuel
  induction fuel with
  | zero => intro n hc; simp [natDigitsAux] at hc
  | succ fuel ih =>
      intro n hc
      by_cases h10 : n < 10
      · simp only [natDigitsAux, if_pos h10, List.mem_singleton] at hc
        exact ⟨n, hc⟩
      · simp only [natDigitsAux, if_neg h10, List.mem_append, List.mem_singleton] at hc
        rcases hc with hc | hc
        · exact ih hc
        · exact ⟨n % 10, hc⟩

theorem natStr_no_slash (n : Nat) : ('/') ∉ (natStr n).data := by
  intro h
  obtain ⟨k, hk⟩ := mem_natDigitsAux h
  exact digitChar_ne_slash k hk.symm

theorem splitextScan_docx (r : List Char) :
    splitextScan (('x') :: ('c') :: ('o') :: ('d') :: ('.') :: r) = some r := by
  simp [splitextScan]

theorem pySplitextRoot_docx (uid : String) (hne : uid.data ≠ [])
    (hdot : ('.') ∉ uid.data) (hslash : ('/') ∉ uid.data) :
    pySplitextRoot (uid ++ ".docx") = uid := by
  have h1 : splitextScan (uid ++ (".docx" : String)).data.reverse = some uid.data.reverse := by
    rw [String.data_append, List.reverse_append]
    exact splitextScan_docx uid.data.reverse
  have h2 : ((uid.data.reverse.takeWhile (fun c => c ≠ '/')).any (fun c => c ≠ '.')) = true := by
    have htw : uid.data.reverse.takeWhile (fun c => (c ≠ '/' : Bool)) = uid.data.reverse := by
      apply List.takeWhile_eq_self_iff.mpr
      intro c hc
      rw [List.mem_reverse] at hc
      simp only [ne_eq, decide_eq_true_eq]
      intro hcc
      exact hslash (hcc ▸ hc)
    rw [htw, List.any_eq_true]
    obtain ⟨c, hc⟩ := List.exists_mem_of_ne_nil uid.data hne
    refine ⟨c, List.mem_reverse.mpr hc, ?_⟩
    simp only [ne_eq, decide_eq_true_eq]
    intro hcc
    exact hdot (hcc ▸ hc)
  unfold pySplitextRoot
  rw [h1]
  dsimp only
  rw [if_pos h2, List.reverse_reverse]

theorem str_append_right_ne (s t u : String) (h : t.length ≠ u.length) : s ++ t ≠ s ++ u := by
  intro hc
  have := congrArg String.length hc
  rw [String.length_append, String.length_append] at this
  omega

theorem joined_docx_ne_pdf (tempDir uid : String) :
    FsPath.joined (FsPath.root tempDir) (uid ++ ".docx") ≠
      FsPath.joined (FsPath.root tempDir) (uid ++ ".pdf") := by
  intro hc
  rw [FsPath.joined.injEq] at hc
  exact str_append_right_ne uid (".docx") (".pdf") (by decide) hc.2

theorem expected_pdf_path_eq (tempDir uid : String) (hne : uid.data ≠ [])
    (hdot : ('.') ∉ uid.data) (hslash : ('/') ∉ uid.data) :
    expected_pdf_path tempDir uid = FsPath.joined (FsPath.root tempDir) (uid ++ ".pdf") := by
  unfold expected_pdf_path
  rw [pySplitextRoot_docx uid hne hdot hslash]

theorem Disk.mem_write_self (d : Disk) (p : FsPath) : p ∈ d.write p := by
  unfold Disk.write
  split
  · assumption
  · simp

theorem Disk.mem_write (d : Disk) (p q : FsPath) (h : q ∈ d) : q ∈ d.write p := by
  unfold Disk.write
  split
  · exact h
  · simp [h]

theorem Disk.write_of_not_mem {d : Disk} {p : FsPath} (h : p ∉ d) : d.write p = d ++ [p] := by
  unfold Disk.write
  rw [if_neg h]

theorem Disk.not_mem_removeFile (d : Disk) (p : FsPath) : p ∉ d.removeFile p := by
  unfold Disk.removeFile
  simp

theorem Disk.removeFile_append_single (d : Disk) (p : FsPath) :
    (d ++ [p]).removeFile p = d.removeFile p := by
  unfold Disk.removeFile
  rw [List.filter_append]
  simp

theorem Disk.removeFile_of_not_mem {d : Disk} {p : FsPath} (h : p ∉ d) : d.removeFile p = d := by
  unfold Disk.removeFile
  apply List.filter_eq_self.mpr
  intro q hq
  simp only [ne_eq, decide_eq_true_eq]
  intro hc
  exact h (hc ▸ hq)

theorem FsPath.isUnder_refl (p : FsPath) : FsPath.isUnder p p = true := by
  cases p <;> simp [FsPath.isUnder]

theorem FsPath.isUnder_joined_self (dir : FsPath) (n : String) :
    FsPath.isUnder dir (FsPath.joined dir n) = true := by
  rw [FsPath.isUnder]
  simp [FsPath.isUnder_refl]

theorem zip_path_not_under (tempDir jobId : String) :
    FsPath.isUnder (FsPath.joined (FsPath.root tempDir) jobId)
      (FsPath.joined (FsPath.root tempDir) (jobId ++ ".zip")) = false := by
  have hz : jobId ++ (".zip" : String) ≠ jobId := by
    intro h
    have := congrArg String.length h
    rw [String.length_append] at this
    have h4 : (".zip" : String).length = 4 := by decide
    omega
  rw [FsPath.isUnder, FsPath.isUnder]
  simp [hz]

theorem page_image_path_ne_dir (tempDir jobId : String) (nm : String) :
    FsPath.joined (FsPath.joined (FsPath.root tempDir) jobId) nm ≠
      FsPath.joined (FsPath.root tempDir) jobId := by
  intro h
  rw [FsPath.joined.injEq] at h
  exact FsPath.noConfusion h.1

theorem page_image_path_inj {dir : FsPath} {a b : Nat}
    (h : page_image_path dir a = page_image_path dir b) : a = b := by
  unfold page_image_path at h
  rw [FsPath.joined.injEq] at h
  have h2 := congrArg String.data h.2
  rw [String.data_append, String.data_append, String.data_append, String.data_append] at h2
  have h3 : (natStr (a + 1)).data = (natStr (b + 1)).data :=
    List.append_cancel_left (List.append_cancel_right h2)
  have h4 := natDigitsAux_full_inj h3
  omega

theorem Disk.write_of_mem {d : Disk} {p : FsPath} (h : p ∈ d) : d.write p = d := by
  unfold Disk.write
  rw [if_pos h]

theorem renderLoop_disk_extend (dir : FsPath) (ra : Option (Nat × String × String)) :
    ∀ (pages : List Nat) (d : Disk) (evs : List RenderEvent),
      ∃ l : List FsPath, (renderLoop dir ra pages d evs).2.1 = d ++ l ∧
        ∀ p ∈ l, FsPath.isUnder dir p = true := by
  intro pages
  induction pages with
  | nil =>
      intro d evs
      exact ⟨[], by simp [renderLoop], by simp⟩
  | cons n rest ih =>
      intro d evs
      have hstep : ∀ (d2 : Disk) (evs2 : List RenderEvent), ∃ l : List FsPath,
          (renderLoop dir ra rest (Disk.write d2 (page_image_path dir n)) evs2).2.1 = d2 ++ l ∧
          ∀ p ∈ l, FsPath.isUnder dir p = true := by
        intro d2 evs2
        obtain ⟨l, hl, hu⟩ := ih (Disk.write d2 (page_image_path dir n)) evs2
        by_cases hmem : page_image_path dir n ∈ d2
        · refine ⟨l, ?_, hu⟩
          rw [Disk.write_of_mem hmem] at hl ⊢
          exact hl
        · refine ⟨page_image_path dir n :: l, ?_, ?_⟩
          · rw [Disk.write_of_not_mem hmem] at hl ⊢
            rw [hl, List.append_assoc]
            rfl
          · intro p hp
            rcases List.mem_cons.mp hp with hp | hp
            · subst hp
              exact FsPath.isUnder_joined_self dir _
            · exact hu p hp
      cases ra with
      | none => exact hstep d (evs ++ [RenderEvent.mk n 200 ("png")])
      | some t =>
          obtain ⟨i, rep, msg⟩ := t
          by_cases hni : n = i
          · refine ⟨[], ?_, by simp⟩
            rw [renderLoop, if_pos hni]
            simp
          · obtain ⟨l, hl, hu⟩ := hstep d (evs ++ [RenderEvent.mk n 200 ("png")])
            refine ⟨l, ?_, hu⟩
            rw [renderLoop, if_neg hni]
            exact hl

theorem renderLoop_none_run (dir : FsPath) :
    ∀ (pages : List Nat) (d : Disk) (evs : List RenderEvent),
      (∀ n ∈ pages, page_image_path dir n ∉ d) → pages.Nodup →
      renderLoop dir none pages d evs =
        (.ok (), d ++ pages.map (page_image_path dir),
          evs ++ pages.map (fun n => ⟨n, 200, "png"⟩)) := by
  intro pages
  induction pages with
  | nil =>
      intro d evs _ _
      simp [renderLoop]
  | cons n rest ih =>
      intro d evs hfresh hnd
      have hfresh2 : ∀ m ∈ rest, page_image_path dir m ∉ d ++ [page_image_path dir n] := by
        intro m hm
        rw [List.mem_append, List.mem_singleton]
        rintro (hc | hc)
        · exact hfresh m (List.mem_cons_of_mem n hm) hc
        · have := page_image_path_inj hc
          subst this
          exact (List.nodup_cons.mp hnd).1 hm
      have hih := ih (d ++ [page_image_path dir n]) (evs ++ [RenderEvent.mk n 200 ("png")])
        hfresh2 (List.nodup_cons.mp hnd).2
      rw [renderLoop, Disk.write_of_not_mem (hfresh n (by simp)), hih]
      simp

theorem zipLoop_none_run :
    ∀ (names : List String) (idx : Nat) (acc : List String),
      zipLoop none names idx acc = (.ok (), acc ++ names) := by
  intro names
  induction names with
  | nil => intro idx acc; simp [zipLoop]
  | cons n rest ih =>
      intro idx acc
      rw [zipLoop, ih (idx + 1) (acc ++ [n])]
      simp

theorem listDir_append (d1 d2 : Disk) (dir : FsPath) :
    Disk.listDir (d1 ++ d2) dir = Disk.listDir d1 dir ++ Disk.listDir d2 dir := by
  unfold Disk.listDir
  exact List.filterMap_append d1 d2 _

theorem listDir_of_not_under (d : Disk) (dir : FsPath)
    (h : ∀ p ∈ d, FsPath.isUnder dir p = false) : Disk.listDir d dir = [] := by
  unfold Disk.listDir
  rw [List.filterMap_eq_nil_iff]
  intro p hp
  cases p with
  | root s => rfl
  | joined parent name =>
      have hu := h _ hp
      simp only
      rw [if_neg]
      intro hc
      subst hc
      rw [FsPath.isUnder_joined_self] at hu
      exact Bool.true_eq_false.mp hu

theorem listDir_dir_singleton (tempDir jobId : String) :
    Disk.listDir [FsPath.joined (FsPath.root tempDir) jobId]
      (FsPath.joined (FsPath.root tempDir) jobId) = [] := by
  unfold Disk.listDir
  rw [List.filterMap_eq_nil_iff]
  intro p hp
  rw [List.mem_singleton] at hp
  subst hp
  simp only
  rw [if_neg]
  intro hc
  exact FsPath.noConfusion hc

theorem listDir_pages (dir : FsPath) (pages : List Nat) :
    Disk.listDir (pages.map (page_image_path dir)) dir =
      pages.map (fun n => "page_" ++ natStr (n + 1) ++ ".png") := by
  induction pages with
  | nil => rfl
  | cons n rest ih =>
      unfold Disk.listDir at ih ⊢
      simp only [List.map_cons, List.filterMap_cons, page_image_path]
      rw [if_pos trivial, ih]

theorem filter_isUnder_rmtree (d : Disk) (dir : FsPath) :
    (Disk.rmtree d dir).filter (fun p => FsPath.isUnder dir p) = [] := by
  unfold Disk.rmtree
  rw [List.filter_filter]
  rw [List.filter_eq_nil_iff]
  intro p _
  cases hb : FsPath.isUnder dir p <;> simp [hb]

theorem not_mem_rmtree_self (d : Disk) (dir : FsPath) : dir ∉ Disk.rmtree d dir := by
  unfold Disk.rmtree
  intro h
  have := List.of_mem_filter h
  rw [FsPath.isUnder_refl] at this
  exact absurd this (by decide)

theorem rmtree_parts (d0 : Disk) (dir : FsPath) (l : List FsPath)
    (hfresh : ∀ p ∈ d0, FsPath.isUnder dir p = false)
    (hl : ∀ p ∈ l, FsPath.isUnder dir p = true) :
    Disk.rmtree (d0 ++ dir :: l) dir = d0 := by
  unfold Disk.rmtree
  rw [List.filter_append]
  have h1 : List.filter (fun p => !(FsPath.isUnder dir p)) d0 = d0 := by
    apply List.filter_eq_self.mpr
    intro p hp
    rw [hfresh p hp]
    rfl
  have h2 : List.filter (fun p => !(FsPath.isUnder dir p)) (dir :: l) = [] := by
    rw [List.filter_cons, if_neg (by rw [FsPath.isUnder_refl]; decide)]
    rw [List.filter_eq_nil_iff]
    intro p hp
    rw [hl p hp]
    decide
  rw [h1, h2, List.append_nil]

theorem rmtree_parts_zip (d0 : Disk) (dir zp : FsPath) (l : List FsPath)
    (hfresh : ∀ p ∈ d0, FsPath.isUnder dir p = false)
    (hl : ∀ p ∈ l, FsPath.isUnder dir p = true)
    (hzp : FsPath.isUnder dir zp = false) :
    Disk.rmtree ((d0 ++ dir :: l) ++ [zp]) dir = d0 ++ [zp] := by
  unfold Disk.rmtree
  rw [List.filter_append]
  have h1 : Disk.rmtree (d0 ++ dir :: l) dir = d0 := rmtree_parts d0 dir l hfresh hl
  unfold Disk.rmtree at h1
  rw [h1]
  have h2 : List.filter (fun p => !(FsPath.isUnder dir p)) [zp] = [zp] := by
    apply List.filter_eq_self.mpr
    intro p hp
    rw [List.mem_singleton] at hp
    subst hp
    rw [hzp]
    rfl
  rw [h2]

theorem dir_not_mem_of_fresh {tempDir jobId : String} {d0 : Disk}
    (hfresh : ∀ p ∈ d0, FsPath.isUnder (FsPath.joined (FsPath.root tempDir) jobId) p = false) :
    FsPath.joined (FsPath.root tempDir) jobId ∉ d0 := by
  intro h
  have := hfresh _ h
  rw [FsPath.isUnder_refl] at this
  exact absurd this (by decide)

theorem zp_ne_dir (tempDir jobId : String) :
    FsPath.joined (FsPath.root tempDir) (jobId ++ ".zip") ≠
      FsPath.joined (FsPath.root tempDir) jobId := by
  intro h
  rw [FsPath.joined.injEq] at h
  have := congrArg String.length h.2
  rw [String.length_append] at this
  have h4 : (".zip" : String).length = 4 := by decide
  omega

theorem p2i_task_run (tempDir jobId : String) (eng : P2IEngine) (d0 : Disk)
    (hfresh : ∀ p ∈ d0, FsPath.isUnder (FsPath.joined (FsPath.root tempDir) jobId) p = false)
    (hzip : FsPath.joined (FsPath.root tempDir) (jobId ++ ".zip") ∉ d0) :
    ((processing_task_p2i tempDir jobId eng d0).result =
        .ok (FsPath.joined (FsPath.root tempDir) (jobId ++ ".zip")) ∧
      (processing_task_p2i tempDir jobId eng d0).disk =
        d0 ++ [FsPath.joined (FsPath.root tempDir) (jobId ++ ".zip")]) ∨
    ((∃ det, (processing_task_p2i tempDir jobId eng d0).result =
        .error (.app (.conversionError det))) ∧
      ((processing_task_p2i tempDir jobId eng d0).disk = d0 ∨
       (processing_task_p2i tempDir jobId eng d0).disk =
        d0 ++ [FsPath.joined (FsPath.root tempDir) (jobId ++ ".zip")])) := by
  have hdir0 : FsPath.joined (FsPath.root tempDir) jobId ∉ d0 := dir_not_mem_of_fresh hfresh
  have hd1 : Disk.write d0 (FsPath.joined (FsPath.root tempDir) jobId) =
      d0 ++ [FsPath.joined (FsPath.root tempDir) jobId] := Disk.write_of_not_mem hdir0
  rcases ho : eng.openRaises with _ | ⟨rep, msg⟩
  · -- fitz.open succeeds: analyse the render loop
    obtain ⟨l, hl, hul⟩ := renderLoop_disk_extend (FsPath.joined (FsPath.root tempDir) jobId)
      eng.renderRaises (List.range eng.pageCount)
      (Disk.write d0 (FsPath.joined (FsPath.root tempDir) jobId)) []
    rcases hrl : renderLoop (FsPath.joined (FsPath.root tempDir) jobId) eng.renderRaises
        (List.range eng.pageCount)
        (Disk.write d0 (FsPath.joined (FsPath.root tempDir) jobId)) []
      with ⟨res, d2, evs⟩
    rw [hrl] at hl
    simp only at hl
    have hd2 : d2 = d0 ++ FsPath.joined (FsPath.root tempDir) jobId :: l := by
      rw [hl, hd1, List.append_assoc]
      rfl
    have hdird2 : FsPath.joined (FsPath.root tempDir) jobId ∈ d2 := by
      rw [hd2]
      simp
    cases res with
    | error e =>
        right
        constructor
        · simp only [processing_task_p2i, ho, hrl]
          exact ⟨_, rfl⟩
        · left
          simp only [processing_task_p2i, ho, hrl, if_pos hdird2]
          rw [hd2]
          exact rmtree_parts d0 _ l hfresh hul
    | ok u =>
        have hzpl : FsPath.joined (FsPath.root tempDir) (jobId ++ ".zip") ∉ d2 := by
          rw [hd2]
          intro hc
          rcases List.mem_append.mp hc with hc | hc
          · exact hzip hc
          · rcases List.mem_cons.mp hc with hc | hc
            · exact zp_ne_dir tempDir jobId hc
            · have := hul _ hc
              rw [zip_path_not_under tempDir jobId] at this
              exact absurd this (by decide)
        have hd3 : Disk.write d2 (FsPath.joined (FsPath.root tempDir) (jobId ++ ".zip")) =
            (d0 ++ FsPath.joined (FsPath.root tempDir) jobId :: l) ++
              [FsPath.joined (FsPath.root tempDir) (jobId ++ ".zip")] := by
          rw [Disk.write_of_not_mem hzpl, hd2]
        have hdird3 : FsPath.joined (FsPath.root tempDir) jobId ∈
            Disk.write d2 (FsPath.joined (FsPath.root tempDir) (jobId ++ ".zip")) := by
          rw [hd3]
          simp
        have hrm : Disk.rmtree
            (Disk.write d2 (FsPath.joined (FsPath.root tempDir) (jobId ++ ".zip")))
            (FsPath.joined (FsPath.root tempDir) jobId) =
            d0 ++ [FsPath.joined (FsPath.root tempDir) (jobId ++ ".zip")] := by
          rw [hd3]
          exact rmtree_parts_zip d0 _ _ l hfresh hul (zip_path_not_under tempDir jobId)
        rcases hzl : zipLoop eng.zipWriteRaises
            (Disk.listDir d2 (FsPath.joined (FsPath.root tempDir) jobId)) 0 []
          with ⟨zres, entries⟩
        cases zres with
        | error e =>
            right
            constructor
            · simp only [processing_task_p2i, ho, hrl, hzl]
              exact ⟨_, rfl⟩
            · right
              simp only [processing_task_p2i, ho, hrl, hzl, if_pos hdird3]
              exact hrm
        | ok v =>
            left
            constructor
            · simp only [processing_task_p2i, ho, hrl, hzl]
            · simp only [processing_task_p2i, ho, hrl, hzl, if_pos hdird3]
              exact hrm
  · -- fitz.open raises
    right
    constructor
    · simp only [processing_task_p2i, ho]
      exact ⟨_, rfl⟩
    · left
      have hdird1 : FsPath.joined (FsPath.root tempDir) jobId ∈
          Disk.write d0 (FsPath.joined (FsPath.root tempDir) jobId) :=
        Disk.mem_write_self d0 _
      simp only [processing_task_p2i, ho, if_pos hdird1]
      rw [hd1]
      have : d0 ++ [FsPath.joined (FsPath.root tempDir) jobId] =
          d0 ++ FsPath.joined (FsPath.root tempDir) jobId :: [] := rfl
      rw [this]
      exact rmtree_parts d0 _ [] hfresh (by simp)

theorem pages_fresh_of_fresh (tempDir jobId : String) (d0 : Disk)
    (hfresh : ∀ p ∈ d0, FsPath.isUnder (FsPath.joined (FsPath.root tempDir) jobId) p = false) :
    ∀ n ∈ List.range (k : Nat),
      page_image_path (FsPath.joined (FsPath.root tempDir) jobId) n ∉
        d0 ++ [FsPath.joined (FsPath.root tempDir) jobId] := by
  intro n _ hc
  rcases List.mem_append.mp hc with hc | hc
  · have := hfresh _ hc
    rw [page_image_path, FsPath.isUnder_joined_self] at this
    exact absurd this (by decide)
  · rw [List.mem_singleton] at hc
    exact page_image_path_ne_dir tempDir jobId _ hc

theorem p2i_task_ok_run (tempDir jobId : String) (eng : P2IEngine) (d0 : Disk)
    (hopen : eng.openRaises = none) (hrend : eng.renderRaises = none)
    (hzipw : eng.zipWriteRaises = none)
    (hfresh : ∀ p ∈ d0, FsPath.isUnder (FsPath.joined (FsPath.root tempDir) jobId) p = false) :
    (processing_task_p2i tempDir jobId eng d0).result =
        .ok (FsPath.joined (FsPath.root tempDir) (jobId ++ ".zip")) ∧
    (processing_task_p2i tempDir jobId eng d0).renders =
        (List.range eng.pageCount).map (fun n => ⟨n, 200, "png"⟩) ∧
    (processing_task_p2i tempDir jobId eng d0).zipEntries =
        (List.range eng.pageCount).map (fun n => "page_" ++ natStr (n + 1) ++ ".png") := by
  have hdir0 : FsPath.joined (FsPath.root tempDir) jobId ∉ d0 := dir_not_mem_of_fresh hfresh
  have hd1 : Disk.write d0 (FsPath.joined (FsPath.root tempDir) jobId) =
      d0 ++ [FsPath.joined (FsPath.root tempDir) jobId] := Disk.write_of_not_mem hdir0
  have hrl : renderLoop (FsPath.joined (FsPath.root tempDir) jobId) eng.renderRaises
      (List.range eng.pageCount)
      (Disk.write d0 (FsPath.joined (FsPath.root tempDir) jobId)) [] =
      (.ok (), (d0 ++ [FsPath.joined (FsPath.root tempDir) jobId]) ++
          (List.range eng.pageCount).map
            (page_image_path (FsPath.joined (FsPath.root tempDir) jobId)),
        ([] : List RenderEvent) ++ (List.range eng.pageCount).map (fun n => ⟨n, 200, "png"⟩)) := by
    rw [hrend, hd1]
    exact renderLoop_none_run (FsPath.joined (FsPath.root tempDir) jobId)
      (List.range eng.pageCount) (d0 ++ [FsPath.joined (FsPath.root tempDir) jobId]) []
      (pages_fresh_of_fresh tempDir jobId d0 hfresh) (List.nodup_range _)
  have hnames : Disk.listDir
      ((d0 ++ [FsPath.joined (FsPath.root tempDir) jobId]) ++
        (List.range eng.pageCount).map
          (page_image_path (FsPath.joined (FsPath.root tempDir) jobId)))
      (FsPath.joined (FsPath.root tempDir) jobId) =
      (List.range eng.pageCount).map (fun n => "page_" ++ natStr (n + 1) ++ ".png") := by
    rw [listDir_append, listDir_append]
    rw [listDir_of_not_under d0 _ hfresh, listDir_dir_singleton, listDir_pages]
    simp
  have hzl : zipLoop eng.zipWriteRaises
      ((List.range eng.pageCount).map (fun n => "page_" ++ natStr (n + 1) ++ ".png")) 0 [] =
      (.ok (), ([] : List String) ++
        (List.range eng.pageCount).map (fun n => "page_" ++ natStr (n + 1) ++ ".png")) := by
    rw [hzipw]
    exact zipLoop_none_run _ 0 []
  simp only [processing_task_p2i, hopen, hrl, hnames, hzl]
  simp

theorem p2i_task_disk_is_rmtree (tempDir jobId : String) (eng : P2IEngine) (d0 : Disk) :
    ∃ dPre : Disk, (processing_task_p2i tempDir jobId eng d0).disk =
      Disk.rmtree dPre (FsPath.joined (FsPath.root tempDir) jobId) := by
  rcases ho : eng.openRaises with _ | ⟨rep, msg⟩
  · obtain ⟨l, hl, _⟩ := renderLoop_disk_extend (FsPath.joined (FsPath.root tempDir) jobId)
      eng.renderRaises (List.range eng.pageCount)
      (Disk.write d0 (FsPath.joined (FsPath.root tempDir) jobId)) []
    rcases hrl : renderLoop (FsPath.joined (FsPath.root tempDir) jobId) eng.renderRaises
        (List.range eng.pageCount)
        (Disk.write d0 (FsPath.joined (FsPath.root tempDir) jobId)) []
      with ⟨res, d2, evs⟩
    rw [hrl] at hl
    simp only at hl
    have hdird2 : FsPath.joined (FsPath.root tempDir) jobId ∈ d2 := by
      rw [hl]
      exact List.mem_append.mpr (Or.inl (Disk.mem_write_self d0 _))
    cases res with
    | error e =>
        exact ⟨d2, by simp only [processing_task_p2i, ho, hrl, if_pos hdird2]⟩
    | ok u =>
        have hdird3 : FsPath.joined (FsPath.root tempDir) jobId ∈
            Disk.write d2 (FsPath.joined (FsPath.root tempDir) (jobId ++ ".zip")) :=
          Disk.mem_write d2 _ _ hdird2
        rcases hzl : zipLoop eng.zipWriteRaises
            (Disk.listDir d2 (FsPath.joined (FsPath.root tempDir) jobId)) 0 []
          with ⟨zres, entries⟩
        cases zres with
        | error e =>
            exact ⟨Disk.write d2 (FsPath.joined (FsPath.root tempDir) (jobId ++ ".zip")),
              by simp only [processing_task_p2i, ho, hrl, hzl, if_pos hdird3]⟩
        | ok v =>
            exact ⟨Disk.write d2 (FsPath.joined (FsPath.root tempDir) (jobId ++ ".zip")),
              by simp only [processing_task_p2i, ho, hrl, hzl, if_pos hdird3]⟩
  · exact ⟨Disk.write d0 (FsPath.joined (FsPath.root tempDir) jobId),
      by simp only [processing_task_p2i, ho, if_pos (Disk.mem_write_self d0
        (FsPath.joined (FsPath.root tempDir) jobId))]⟩

/-- C1: the claim says every conversion endpoint rejects a request whose
X-API-Key header is absent (authentication-missing failure) or not in the
configured set (403), before any executor runs.  The code defines the gate
in security.py but no route of conversion.py declares it, so the embedded
pdf-to-word route streams a successful conversion for a request with no
header at all, and again for a header outside the configured key list, and
its outcome is independent of both the header and the configured keys. -/
theorem c1_missing_credential_reaches_executor :
    (convert_pdf_to_word_route ["secret-key"] ("temp_files") ("u1")
        ⟨none, ⟨"report.pdf", "application/pdf", "%PDF"⟩⟩ ⟨none, none⟩ [] =
      ⟨.fileStream (FsPath.joined (FsPath.root ("temp_files")) ("u1.docx"))
          ("application/vnd.openxmlformats-officedocument.wordprocessingml.document")
          ("report.docx"),
        [], ["Converter", "cv.convert"]⟩) ∧
    (convert_pdf_to_word_route ["secret-key"] ("temp_files") ("u1")
        ⟨some ("not-a-key"), ⟨"report.pdf", "application/pdf", "%PDF"⟩⟩ ⟨none, none⟩ [] =
      ⟨.fileStream (FsPath.joined (FsPath.root ("temp_files")) ("u1.docx"))
          ("application/vnd.openxmlformats-officedocument.wordprocessingml.document")
          ("report.docx"),
        [], ["Converter", "cv.convert"]⟩) ∧
    (∀ (keys keys2 : List String) (hdr hdr2 : Option String) (tempDir uid : String)
        (f : UploadFile) (eng : P2DEngine) (d0 : Disk),
      convert_pdf_to_word_route keys tempDir uid ⟨hdr, f⟩ eng d0 =
        convert_pdf_to_word_route keys2 tempDir uid ⟨hdr2, f⟩ eng d0) ∧
    (∀ (keys keys2 : List String) (hdr hdr2 : Option String) (tempDir jobId : String)
        (f : UploadFile) (eng : P2IEngine) (d0 : Disk),
      convert_pdf_to_images_route keys tempDir jobId ⟨hdr, f⟩ eng d0 =
        convert_pdf_to_images_route keys2 tempDir jobId ⟨hdr2, f⟩ eng d0) := by
  refine ⟨by decide, by decide, ?_, ?_⟩
  · intro keys keys2 hdr hdr2 tempDir uid f eng d0
    rfl
  · intro keys keys2 hdr hdr2 tempDir jobId f eng d0
    rfl

/-- C2: the claim says a wrong declared content type, or an empty
images-to-pdf file list, yields a validation failure with HTTP 400 and no
engine invocation.  The no-engine-invocation half holds on every endpoint,
and the word-to-pdf and images-to-pdf validators do return 400, but the
PDF endpoints raise ConversionError, so a wrong content type there is
delivered as 422 File conversion failed, not as a 400 validation
failure. -/
theorem c2_wrong_type_status_codes :
    (convert_pdf_to_word_route [] ("temp_files") ("u1")
        ⟨none, ⟨"a.txt", "text/plain", "hello"⟩⟩ ⟨none, none⟩ [] =
      ⟨.errorJson 422 ("File conversion failed.")
          ("Invald file type: text/plain. Only PDF files are accepted."),
        [], []⟩) ∧
    (convert_pdf_to_images_route [] ("temp_files") ("j1")
        ⟨none, ⟨"a.txt", "text/plain", "hello"⟩⟩ ⟨1, none, none, none⟩ [] =
      ⟨.errorJson 422 ("File conversion failed.")
          ("Invald file type: text/plain. Only PDF files are accepted."),
        [], []⟩) ∧
    (convert_word_to_pdf_route [] ("temp_files") ("u1")
        ⟨none, ⟨"a.txt", "text/plain", "hello"⟩⟩ ⟨none, 0, "", true⟩ [] =
      ⟨.errorJson 400 ("Invalid file provided.")
          ("Invalid file type: text/plain. Only DOCX files are accepted."),
        [], []⟩) ∧
    (convert_images_to_pdf_route [] ("temp_files") ("u1") none [] ⟨none, none⟩ [] =
      ⟨.errorJson 400 ("Invalid file provided.") ("No files were uploaded."), [], []⟩) ∧
    (convert_images_to_pdf_route [] ("temp_files") ("u1") none
        [⟨⟨"x.exe", "application/octet-stream", "MZ"⟩, (10, 10)⟩] ⟨none, none⟩ [] =
      ⟨.errorJson 400 ("Invalid file provided.")
          ("Invalid file type: application/octet-stream. Only images are accepted."),
        [], []⟩) := by
  refine ⟨by decide, by decide, by decide, by decide, by decide⟩

set_option maxRecDepth 4000 in
/-- C3: the claim says a non-zero exit of the external converter is
delivered as a 422 conversion failure whose details contain the captured
stderr text, or the placeholder when stderr is empty.  The code builds
exactly that message, but the enclosing except-block catches its own
ConversionError and rewraps it using repr, which carries only the fixed
class message; the delivered details are a constant string in which the
captured stderr text (here boom) does not occur, and the empty-stderr
placeholder is lost the same way. -/
theorem c3_stderr_lost_in_rewrap :
    ((convert_docx_to_pdf ("temp_files") ("u1")
        ⟨"d.docx", "application/vnd.openxmlformats-officedocument.wordprocessingml.document", "PK"⟩
        ⟨none, 1, "boom", false⟩ []).result =
      .error (.app (.conversionError
        ("An unexpected error occurred: ConversionError(\x27File conversion failed.\x27)")))) ∧
    strContainsSub
      ("An unexpected error occurred: ConversionError(\x27File conversion failed.\x27)")
      ("boom") = false ∧
    (AppExc.conversionError
      ("An unexpected error occurred: ConversionError(\x27File conversion failed.\x27)")).statusCode
      = 422 ∧
    ((convert_docx_to_pdf ("temp_files") ("u1")
        ⟨"d.docx", "application/vnd.openxmlformats-officedocument.wordprocessingml.document", "PK"⟩
        ⟨none, 1, "", false⟩ []).result =
      .error (.app (.conversionError
        ("An unexpected error occurred: ConversionError(\x27File conversion failed.\x27)")))) ∧
    strContainsSub
      ("An unexpected error occurred: ConversionError(\x27File conversion failed.\x27)")
      ("Unknown LibreOffice error.") = false := by
  refine ⟨by decide, by decide, by decide, by decide, by decide⟩

theorem removeFile_append (d1 d2 : Disk) (p : FsPath) :
    Disk.removeFile (d1 ++ d2) p = Disk.removeFile d1 p ++ Disk.removeFile d2 p := by
  unfold Disk.removeFile
  exact List.filter_append d1 d2

theorem removeFile_singleton_ne {q p : FsPath} (h : q ≠ p) : Disk.removeFile [q] p = [q] := by
  unfold Disk.removeFile
  simp [h]

theorem p2d_exec_run (tempDir uid : String) (f : UploadFile) (eng : P2DEngine) (d0 : Disk)
    (hpdf : FsPath.joined (FsPath.root tempDir) (uid ++ ".pdf") ∉ d0)
    (hdocx : FsPath.joined (FsPath.root tempDir) (uid ++ ".docx") ∉ d0) :
    ((convert_pdf_to_docx tempDir uid f eng d0).result =
        .ok (FsPath.joined (FsPath.root tempDir) (uid ++ ".docx")) ∧
      (convert_pdf_to_docx tempDir uid f eng d0).disk =
        d0 ++ [FsPath.joined (FsPath.root tempDir) (uid ++ ".docx")]) ∨
    ((∃ e, (convert_pdf_to_docx tempDir uid f eng d0).result = .error e) ∧
      (convert_pdf_to_docx tempDir uid f eng d0).disk = d0) := by
  have hd1 : Disk.write d0 (FsPath.joined (FsPath.root tempDir) (uid ++ ".pdf")) =
      d0 ++ [FsPath.joined (FsPath.root tempDir) (uid ++ ".pdf")] := Disk.write_of_not_mem hpdf
  have hpdfmem : FsPath.joined (FsPath.root tempDir) (uid ++ ".pdf") ∈
      Disk.write d0 (FsPath.joined (FsPath.root tempDir) (uid ++ ".pdf")) :=
    Disk.mem_write_self d0 _
  have hrm : Disk.removeFile
      (d0 ++ [FsPath.joined (FsPath.root tempDir) (uid ++ ".pdf")])
      (FsPath.joined (FsPath.root tempDir) (uid ++ ".pdf")) = d0 := by
    rw [Disk.removeFile_append_single, Disk.removeFile_of_not_mem hpdf]
  cases hv : validate_pdf_file f with
  | error e =>
      right
      constructor
      · exact ⟨.app e, by simp only [convert_pdf_to_docx, hv]⟩
      · simp only [convert_pdf_to_docx, hv]
  | ok u =>
      rcases hcr : eng.converterRaises with _ | ⟨rep, msg⟩
      · rcases hcv : eng.convertRaises with _ | ⟨rep, msg⟩
        · -- both engine calls succeed
          left
          have hdocx2 : FsPath.joined (FsPath.root tempDir) (uid ++ ".docx") ∉
              Disk.write d0 (FsPath.joined (FsPath.root tempDir) (uid ++ ".pdf")) := by
            rw [hd1]
            intro hc
            rcases List.mem_append.mp hc with hc | hc
            · exact hdocx hc
            · rw [List.mem_singleton] at hc
              exact joined_docx_ne_pdf tempDir uid hc
          have hw2 : Disk.write
              (Disk.write d0 (FsPath.joined (FsPath.root tempDir) (uid ++ ".pdf")))
              (FsPath.joined (FsPath.root tempDir) (uid ++ ".docx")) =
              (d0 ++ [FsPath.joined (FsPath.root tempDir) (uid ++ ".pdf")]) ++
                [FsPath.joined (FsPath.root tempDir) (uid ++ ".docx")] := by
            rw [Disk.write_of_not_mem hdocx2, hd1]
          have hpdfmem2 : FsPath.joined (FsPath.root tempDir) (uid ++ ".pdf") ∈
              Disk.write (Disk.write d0 (FsPath.joined (FsPath.root tempDir) (uid ++ ".pdf")))
                (FsPath.joined (FsPath.root tempDir) (uid ++ ".docx")) :=
            Disk.mem_write _ _ _ hpdfmem
          constructor
          · simp only [convert_pdf_to_docx, hv, hcr, hcv]
          · simp only [convert_pdf_to_docx, hv, hcr, hcv, if_pos hpdfmem2]
            rw [hw2, removeFile_append, hrm,
              removeFile_singleton_ne (fun hc => joined_docx_ne_pdf tempDir uid hc)]
        · -- cv.convert raises
          right
          constructor
          · simp only [convert_pdf_to_docx, hv, hcr, hcv]
            exact ⟨_, rfl⟩
          · simp only [convert_pdf_to_docx, hv, hcr, hcv, if_pos hpdfmem]
            rw [hd1, hrm]
      · -- Converter raises
        right
        constructor
        · simp only [convert_pdf_to_docx, hv, hcr]
          exact ⟨_, rfl⟩
        · simp only [convert_pdf_to_docx, hv, hcr, if_pos hpdfmem]
          rw [hd1, hrm]

/-- C4 counterexample: a pdf-to-images request in which the engine raises
while writing the first archive entry (the archive file already exists at
that point) is answered with a conversion failure, yet the allocated zip
artifact is still on scratch storage after the request completes, since no
failure path deletes it; this contradicts the claim that a failed request
leaves no artifact behind. -/
theorem c4_zip_leak_counterexample :
    convert_pdf_to_images_route [] ("temp_files") ("j1")
        ⟨none, ⟨"doc.pdf", "application/pdf", "%PDF"⟩⟩
        ⟨1, none, none, some (0, "OSError(28)", "No space left on device")⟩ [] =
      ⟨.errorJson 422 ("File conversion failed.")
          ("An unexpected error occurred during PDF to image conversion: OSError(28)"),
        [FsPath.joined (FsPath.root ("temp_files")) ("j1.zip")], []⟩ := by
  decide

theorem Disk.mem_write_iff {d : Disk} {p q : FsPath} : q ∈ d.write p ↔ q ∈ d ∨ q = p := by
  unfold Disk.write
  split
  · constructor
    · exact Or.inl
    · rintro (h | rfl)
      · exact h
      · assumption
  · simp

theorem not_mem_cleanup (d : Disk) (p : FsPath) :
    p ∉ (if p ∈ d then Disk.removeFile d p else d) := by
  split
  · exact Disk.not_mem_removeFile d p
  · assumption

/-- C5: when the external converter exits with code zero but the expected
output path, the input artifact path with its extension replaced by .pdf in
the same directory, does not exist, convert_docx_to_pdf raises a
ConversionError (rewrapped by the catch-all except-block), so the result
is a conversion failure and never a success. -/
theorem c5_zero_exit_missing_output_fails (tempDir uid : String) (f : UploadFile)
    (eng : LOEngine) (d0 : Disk)
    (hct : f.contentType =
      "application/vnd.openxmlformats-officedocument.wordprocessingml.document")
    (hexec : eng.execRaises = none) (hrc : eng.returncode = 0) (hout : eng.createsPdf = false)
    (hne : uid.data ≠ []) (hdot : ('.') ∉ uid.data) (hslash : ('/') ∉ uid.data)
    (hfresh : FsPath.joined (FsPath.root tempDir) (uid ++ ".pdf") ∉ d0) :
    expected_pdf_path tempDir uid = FsPath.joined (FsPath.root tempDir) (uid ++ ".pdf") ∧
    (convert_docx_to_pdf tempDir uid f eng d0).result =
      .error (.app (.conversionError
        ("An unexpected error occurred: ConversionError(\x27File conversion failed.\x27)"))) := by
  have hexp := expected_pdf_path_eq tempDir uid hne hdot hslash
  refine ⟨hexp, ?_⟩
  have hv : validate_docx_file f = .ok () := by
    simp [validate_docx_file, hct]
  have hnomem : expected_pdf_path tempDir uid ∉
      Disk.write d0 (FsPath.joined (FsPath.root tempDir) (uid ++ ".docx")) := by
    rw [hexp]
    intro hc
    rcases Disk.mem_write_iff.mp hc with hc | hc
    · exact hfresh hc
    · exact joined_docx_ne_pdf tempDir uid hc.symm
  simp only [convert_docx_to_pdf, hv, hexec, hout, hrc]
  norm_num
  rw [if_neg hnomem]
  rfl

theorem c5_zero_exit_missing_output_fails_witness :
    expected_pdf_path ("temp_files") ("u1") =
      FsPath.joined (FsPath.root ("temp_files")) ("u1.pdf") ∧
    (convert_docx_to_pdf ("temp_files") ("u1")
        ⟨"d.docx", "application/vnd.openxmlformats-officedocument.wordprocessingml.document", "PK"⟩
        ⟨none, 0, "", false⟩ []).result =
      .error (.app (.conversionError
        ("An unexpected error occurred: ConversionError(\x27File conversion failed.\x27)"))) := by
  have h := c5_zero_exit_missing_output_fails ("temp_files") ("u1")
    ⟨"d.docx", "application/vnd.openxmlformats-officedocument.wordprocessingml.document", "PK"⟩
    ⟨none, 0, "", false⟩ [] rfl rfl rfl rfl (by decide) (by decide) (by decide) (by decide)
  exact h

/-- C6: for every pdf-to-images task execution, faulting or not, the
per-job intermediate image directory is recursively removed before the
task finishes: no path at or below it is on the final disk, whatever was
on disk before and wherever the engine raised. -/
theorem c6_intermediate_dir_always_removed (tempDir jobId : String) (eng : P2IEngine)
    (d0 : Disk) :
    ((processing_task_p2i tempDir jobId eng d0).disk.filter
      (fun p => FsPath.isUnder (FsPath.joined (FsPath.root tempDir) jobId) p)) = [] ∧
    FsPath.joined (FsPath.root tempDir) jobId ∉
      (processing_task_p2i tempDir jobId eng d0).disk := by
  obtain ⟨dPre, hd⟩ := p2i_task_disk_is_rmtree tempDir jobId eng d0
  rw [hd]
  exact ⟨filter_isUnder_rmtree dPre _, not_mem_rmtree_self dPre _⟩

/-- C8: a fault-free pdf-to-images run over an M-page document returns the
allocated zip path, renders every page in document order at 200 dpi to
png, and archives exactly M entries whose names are the flat 1-based
page_(i).png filenames, with no directory separator in any entry name. -/
theorem c8_archive_entries (tempDir jobId : String) (f : UploadFile) (eng : P2IEngine)
    (d0 : Disk)
    (hct : f.contentType = "application/pdf")
    (hopen : eng.openRaises = none) (hrend : eng.renderRaises = none)
    (hzipw : eng.zipWriteRaises = none)
    (hfresh : ∀ p ∈ d0, FsPath.isUnder (FsPath.joined (FsPath.root tempDir) jobId) p = false) :
    (convert_pdf_to_images_service tempDir jobId f eng d0).result =
        .ok (FsPath.joined (FsPath.root tempDir) (jobId ++ ".zip")) ∧
    (convert_pdf_to_images_service tempDir jobId f eng d0).zipEntries =
        (List.range eng.pageCount).map (fun n => "page_" ++ natStr (n + 1) ++ ".png") ∧
    (convert_pdf_to_images_service tempDir jobId f eng d0).zipEntries.length = eng.pageCount ∧
    (convert_pdf_to_images_service tempDir jobId f eng d0).renders =
        (List.range eng.pageCount).map (fun n => ⟨n, 200, "png"⟩) ∧
    (∀ e ∈ (convert_pdf_to_images_service tempDir jobId f eng d0).zipEntries,
      ('/') ∉ e.data) := by
  have hv : validate_pdf_file f = .ok () := by
    simp [validate_pdf_file, hct]
  have hserv : convert_pdf_to_images_service tempDir jobId f eng d0 =
      processing_task_p2i tempDir jobId eng d0 := by
    simp only [convert_pdf_to_images_service, hv]
  obtain ⟨hres, hrend2, hent⟩ := p2i_task_ok_run tempDir jobId eng d0 hopen hrend hzipw hfresh
  rw [hserv]
  refine ⟨hres, hent, ?_, hrend2, ?_⟩
  · rw [hent]
    simp
  · rw [hent]
    intro e he hc
    rw [List.mem_map] at he
    obtain ⟨n, _, hn⟩ := he
    subst hn
    rw [String.data_append, String.data_append] at hc
    rcases List.mem_append.mp hc with hc2 | hc2
    · rcases List.mem_append.mp hc2 with hc3 | hc3
      · exact absurd hc3 (by decide)
      · exact natStr_no_slash (n + 1) hc3
    · exact absurd hc2 (by decide)

theorem c8_archive_entries_witness :
    (convert_pdf_to_images_service ("temp_files") ("j2")
        ⟨"doc.pdf", "application/pdf", "%PDF"⟩ ⟨2, none, none, none⟩ []).result =
      .ok (FsPath.joined (FsPath.root ("temp_files")) ("j2.zip")) ∧
    (convert_pdf_to_images_service ("temp_files") ("j2")
        ⟨"doc.pdf", "application/pdf", "%PDF"⟩ ⟨2, none, none, none⟩ []).zipEntries =
      ["page_1.png", "page_2.png"] := by
  have h := c8_archive_entries ("temp_files") ("j2")
    ⟨"doc.pdf", "application/pdf", "%PDF"⟩ ⟨2, none, none, none⟩ []
    rfl rfl rfl rfl (by simp)
  refine ⟨h.1, ?_⟩
  rw [h.2.1]
  decide

/-- C9: for the pdf-to-docx and docx-to-pdf executors, on every exit path
after validation (normal return, engine error or subprocess failure) the
finally block releases the uuid-named input artifact, so it is absent from
scratch storage when the executor finishes, for every engine behaviour. -/
theorem c9_input_artifact_released (tempDir uid : String) (f g : UploadFile)
    (engP : P2DEngine) (engL : LOEngine) (d0 : Disk)
    (hf : f.contentType = "application/pdf")
    (hg : g.contentType =
      "application/vnd.openxmlformats-officedocument.wordprocessingml.document") :
    FsPath.joined (FsPath.root tempDir) (uid ++ ".pdf") ∉
      (convert_pdf_to_docx tempDir uid f engP d0).disk ∧
    FsPath.joined (FsPath.root tempDir) (uid ++ ".docx") ∉
      (convert_docx_to_pdf tempDir uid g engL d0).disk := by
  have hvf : validate_pdf_file f = .ok () := by
    simp [validate_pdf_file, hf]
  have hvg : validate_docx_file g = .ok () := by
    simp [validate_docx_file, hg]
  constructor
  · simp only [convert_pdf_to_docx, hvf]
    exact not_mem_cleanup _ _
  · simp only [convert_docx_to_pdf, hvg]
    exact not_mem_cleanup _ _

theorem c9_input_artifact_released_witness :
    FsPath.joined (FsPath.root ("temp_files")) ("u1.pdf") ∉
      (convert_pdf_to_docx ("temp_files") ("u1")
        ⟨"r.pdf", "application/pdf", "%PDF"⟩ ⟨none, none⟩ []).disk ∧
    FsPath.joined (FsPath.root ("temp_files")) ("u1.docx") ∉
      (convert_docx_to_pdf ("temp_files") ("u1")
        ⟨"d.docx", "application/vnd.openxmlformats-officedocument.wordprocessingml.document", "PK"⟩
        ⟨none, 0, "", true⟩ []).disk :=
  c9_input_artifact_released ("temp_files") ("u1")
    ⟨"r.pdf", "application/pdf", "%PDF"⟩
    ⟨"d.docx", "application/vnd.openxmlformats-officedocument.wordprocessingml.document", "PK"⟩
    ⟨none, none⟩ ⟨none, 0, "", true⟩ [] rfl rfl

theorem imagesLoop_none_run :
    ∀ (dims : List (ℚ × ℚ)) (idx : Nat) (acc : List PdfPage),
      imagesLoop none dims idx acc =
        (.ok (), acc ++ dims.map (fun wh => imagePage paper_size_a4.1 paper_size_a4.2 wh.1 wh.2)) := by
  intro dims
  induction dims with
  | nil => intro idx acc; simp [imagesLoop]
  | cons wh rest ih =>
      intro idx acc
      rw [imagesLoop, ih (idx + 1)]
      simp

/-- C7: a fault-free images-to-pdf run over validly typed images with
positive decoded dimensions produces one page per image, in order; each
page is the fixed A4 size 595 by 842 points, the image rectangle is placed
at the uniform scale min(pageWidth/imgWidth, pageHeight/imgHeight), the
scaled rectangle is centered (offset (pageDim - scaledDim)/2 per axis),
lies entirely within the page, and preserves the aspect ratio. -/
theorem c7_images_to_pdf_geometry (tempDir uid : String) (files : List ImageFile) (d0 : Disk)
    (hne : files ≠ [])
    (hty : ∀ fl ∈ files, allowed_content_types.contains fl.upload.contentType = true)
    (hpos : ∀ fl ∈ files, 0 < fl.dims.1 ∧ 0 < fl.dims.2) :
    (convert_images_to_pdf tempDir uid files ⟨none, none⟩ d0).result =
        .ok (FsPath.joined (FsPath.root tempDir) (uid ++ ".pdf")) ∧
    (convert_images_to_pdf tempDir uid files ⟨none, none⟩ d0).pages =
        files.map (fun fl => imagePage 595 842 fl.dims.1 fl.dims.2) ∧
    (convert_images_to_pdf tempDir uid files ⟨none, none⟩ d0).pages.length = files.length ∧
    (∀ fl ∈ files,
      (imagePage 595 842 fl.dims.1 fl.dims.2).width = 595 ∧
      (imagePage 595 842 fl.dims.1 fl.dims.2).height = 842 ∧
      (imagePage 595 842 fl.dims.1 fl.dims.2).x0 =
        (595 - fl.dims.1 * min (595 / fl.dims.1) (842 / fl.dims.2)) / 2 ∧
      (imagePage 595 842 fl.dims.1 fl.dims.2).y0 =
        (842 - fl.dims.2 * min (595 / fl.dims.1) (842 / fl.dims.2)) / 2 ∧
      (imagePage 595 842 fl.dims.1 fl.dims.2).x1 =
        (imagePage 595 842 fl.dims.1 fl.dims.2).x0 +
          fl.dims.1 * min (595 / fl.dims.1) (842 / fl.dims.2) ∧
      (imagePage 595 842 fl.dims.1 fl.dims.2).y1 =
        (imagePage 595 842 fl.dims.1 fl.dims.2).y0 +
          fl.dims.2 * min (595 / fl.dims.1) (842 / fl.dims.2) ∧
      0 ≤ (imagePage 595 842 fl.dims.1 fl.dims.2).x0 ∧
      (imagePage 595 842 fl.dims.1 fl.dims.2).x1 ≤ 595 ∧
      0 ≤ (imagePage 595 842 fl.dims.1 fl.dims.2).y0 ∧
      (imagePage 595 842 fl.dims.1 fl.dims.2).y1 ≤ 842 ∧
      ((imagePage 595 842 fl.dims.1 fl.dims.2).x1 -
        (imagePage 595 842 fl.dims.1 fl.dims.2).x0) * fl.dims.2 =
        ((imagePage 595 842 fl.dims.1 fl.dims.2).y1 -
          (imagePage 595 842 fl.dims.1 fl.dims.2).y0) * fl.dims.1 ∧
      (imagePage 595 842 fl.dims.1 fl.dims.2).x0 +
        (imagePage 595 842 fl.dims.1 fl.dims.2).x1 = 595 ∧
      (imagePage 595 842 fl.dims.1 fl.dims.2).y0 +
        (imagePage 595 842 fl.dims.1 fl.dims.2).y1 = 842) := by
  have hemp : (files.map (fun fl => fl.upload)).isEmpty = false := by
    cases files with
    | nil => exact absurd rfl hne
    | cons a l => rfl
  have hfind : (files.map (fun fl => fl.upload)).find?
      (fun f => !(allowed_content_types.contains f.contentType)) = none := by
    rw [List.find?_eq_none]
    intro x hx
    rw [List.mem_map] at hx
    obtain ⟨fl, hfl, hx⟩ := hx
    subst hx
    rw [hty fl hfl]
    decide
  have hv : validate_image_files (files.map (fun fl => fl.upload)) = .ok () := by
    unfold validate_image_files
    rw [hemp]
    simp only [Bool.false_eq_true, if_false]
    rw [hfind]
  have hloop := imagesLoop_none_run (files.map (fun fl => fl.dims)) 0 []
  refine ⟨?_, ?_, ?_, ?_⟩
  · simp only [convert_images_to_pdf, hv, hloop]
  · simp only [convert_images_to_pdf, hv, hloop]
    simp only [List.nil_append, List.map_map]
    rfl
  · simp only [convert_images_to_pdf, hv, hloop]
    simp
  · intro fl hfl
    obtain ⟨hw, hh⟩ := hpos fl hfl
    have hws : fl.dims.1 * min (595 / fl.dims.1) (842 / fl.dims.2) ≤ 595 := by
      calc fl.dims.1 * min (595 / fl.dims.1) (842 / fl.dims.2) ≤
            fl.dims.1 * (595 / fl.dims.1) :=
          mul_le_mul_of_nonneg_left (min_le_left _ _) (le_of_lt hw)
        _ = 595 := mul_div_cancel₀ _ (ne_of_gt hw)
    have hhs : fl.dims.2 * min (595 / fl.dims.1) (842 / fl.dims.2) ≤ 842 := by
      calc fl.dims.2 * min (595 / fl.dims.1) (842 / fl.dims.2) ≤
            fl.dims.2 * (842 / fl.dims.2) :=
          mul_le_mul_of_nonneg_left (min_le_right _ _) (le_of_lt hh)
        _ = 842 := mul_div_cancel₀ _ (ne_of_gt hh)
    simp only [imagePage]
    refine ⟨?_, ?_, ?_, ?_, ?_, ?_, ?_, ?_, ?_, ?_, ?_, ?_, ?_⟩ <;>
      first
      | trivial
      | linarith

theorem c7_images_to_pdf_geometry_witness :
    (0 : ℚ) < 100 ∧ (0 : ℚ) < 200 ∧
    (convert_images_to_pdf ("temp_files") ("u3")
        [⟨⟨"a.png", "image/png", "bytes"⟩, (100, 200)⟩] ⟨none, none⟩ []).result =
      .ok (FsPath.joined (FsPath.root ("temp_files")) ("u3.pdf")) ∧
    (convert_images_to_pdf ("temp_files") ("u3")
        [⟨⟨"a.png", "image/png", "bytes"⟩, (100, 200)⟩] ⟨none, none⟩ []).pages =
      [imagePage 595 842 100 200] := by
  have h := c7_images_to_pdf_geometry ("temp_files") ("u3")
    [⟨⟨"a.png", "image/png", "bytes"⟩, (100, 200)⟩] []
    (by decide) (by decide) (by decide)
  exact ⟨by norm_num, by norm_num, h.1, h.2.1⟩

theorem find?_invalid_rename (g : String → String) (us : List UploadFile) :
    (us.map (renameUpload g)).find? (fun f => !(allowed_content_types.contains f.contentType)) =
      Option.map (renameUpload g)
        (us.find? (fun f => !(allowed_content_types.contains f.contentType))) := by
  induction us with
  | nil => rfl
  | cons u rest ih =>
      rw [List.map_cons]
      by_cases hp : (!(allowed_content_types.contains u.contentType)) = true
      · rw [@List.find?_cons_of_pos _ (fun f => !(allowed_content_types.contains f.contentType))
            (renameUpload g u) (List.map (renameUpload g) rest) hp,
          @List.find?_cons_of_pos _ (fun f => !(allowed_content_types.contains f.contentType))
            u rest hp]
        rfl
      · rw [@List.find?_cons_of_neg _ (fun f => !(allowed_content_types.contains f.contentType))
            (renameUpload g u) (List.map (renameUpload g) rest) hp,
          @List.find?_cons_of_neg _ (fun f => !(allowed_content_types.contains f.contentType))
            u rest hp, ih]

theorem validate_image_files_rename (g : String → String) (us : List UploadFile) :
    validate_image_files (us.map (renameUpload g)) = validate_image_files us := by
  unfold validate_image_files
  have hemp : (us.map (renameUpload g)).isEmpty = us.isEmpty := by
    cases us <;> rfl
  rw [hemp, find?_invalid_rename g us]
  cases us.find? (fun f => !(allowed_content_types.contains f.contentType)) with
  | none => rfl
  | some f => rfl

theorem convert_images_to_pdf_rename (tempDir uid : String) (g : String → String)
    (files : List ImageFile) (eng : I2PEngine) (d0 : Disk) :
    convert_images_to_pdf tempDir uid (files.map (renameImageFile g)) eng d0 =
      convert_images_to_pdf tempDir uid files eng d0 := by
  unfold convert_images_to_pdf
  have h1 : (files.map (renameImageFile g)).map (fun fl => fl.upload) =
      (files.map (fun fl => fl.upload)).map (renameUpload g) := by
    rw [List.map_map, List.map_map]
    rfl
  have h2 : (files.map (renameImageFile g)).map (fun fl => fl.dims) =
      files.map (fun fl => fl.dims) := by
    rw [List.map_map]
    rfl
  rw [h1, validate_image_files_rename, h2]

theorem p2d_ok_path (tempDir uid : String) (f : UploadFile) (eng : P2DEngine) (d0 : Disk) :
    ∀ p, (convert_pdf_to_docx tempDir uid f eng d0).result = .ok p →
      p = FsPath.joined (FsPath.root tempDir) (uid ++ ".docx") := by
  intro p hp
  unfold convert_pdf_to_docx at hp
  repeat' split at hp
  all_goals simp_all

theorem d2p_ok_path (tempDir uid : String) (f : UploadFile) (eng : LOEngine) (d0 : Disk) :
    ∀ p, (convert_docx_to_pdf tempDir uid f eng d0).result = .ok p →
      p = expected_pdf_path tempDir uid := by
  intro p hp
  unfold convert_docx_to_pdf at hp
  repeat' split at hp
  all_goals try simp_all
  case h_2.h_2.isTrue.isFalse =>
    by_cases hm : expected_pdf_path tempDir uid ∈
        Disk.write (Disk.write d0 (FsPath.joined (FsPath.root tempDir) (uid ++ ".docx")))
          (expected_pdf_path tempDir uid)
    · rw [if_pos hm] at hp
      simp_all
    · exact absurd (Disk.mem_write_self _ _) hm
  case h_2.h_2.isFalse.isFalse =>
    by_cases hm : expected_pdf_path tempDir uid ∈
        Disk.write d0 (FsPath.joined (FsPath.root tempDir) (uid ++ ".docx"))
    · rw [if_pos hm] at hp
      simp_all
    · rw [if_neg hm] at hp
      simp_all

theorem p2i_ok_path (tempDir jobId : String) (f : UploadFile) (eng : P2IEngine) (d0 : Disk) :
    ∀ p, (convert_pdf_to_images_service tempDir jobId f eng d0).result = .ok p →
      p = FsPath.joined (FsPath.root tempDir) (jobId ++ ".zip") := by
  intro p hp
  unfold convert_pdf_to_images_service processing_task_p2i at hp
  repeat' split at hp
  all_goals try simp_all
  rcases hrl : renderLoop (FsPath.joined (FsPath.root tempDir) jobId) eng.renderRaises
      (List.range eng.pageCount) (Disk.write d0 (FsPath.joined (FsPath.root tempDir) jobId)) []
    with ⟨res, d2, evs⟩
  rw [hrl] at hp
  cases res with
  | error e => simp_all
  | ok u =>
      dsimp only at hp
      rcases hzl : zipLoop eng.zipWriteRaises
          (Disk.listDir d2 (FsPath.joined (FsPath.root tempDir) jobId)) 0 []
        with ⟨zres, entries⟩
      rw [hzl] at hp
      cases zres <;> simp_all

theorem i2p_ok_path (tempDir uid : String) (files : List ImageFile) (eng : I2PEngine)
    (d0 : Disk) :
    ∀ p, (convert_images_to_pdf tempDir uid files eng d0).result = .ok p →
      p = FsPath.joined (FsPath.root tempDir) (uid ++ ".pdf") := by
  intro p hp
  unfold convert_images_to_pdf at hp
  repeat' split at hp
  all_goals simp_all

theorem pdf_to_word_route_rename (keys : List String) (tempDir uid : String)
    (g : String → String) (hdr : Option String) (f : UploadFile) (eng : P2DEngine)
    (d0 : Disk) :
    (convert_pdf_to_word_route keys tempDir uid ⟨hdr, renameUpload g f⟩ eng d0).disk =
      (convert_pdf_to_word_route keys tempDir uid ⟨hdr, f⟩ eng d0).disk ∧
    (convert_pdf_to_word_route keys tempDir uid ⟨hdr, renameUpload g f⟩ eng d0).engineCalls =
      (convert_pdf_to_word_route keys tempDir uid ⟨hdr, f⟩ eng d0).engineCalls ∧
    HttpResponse.eraseName
        (convert_pdf_to_word_route keys tempDir uid ⟨hdr, renameUpload g f⟩ eng d0).response =
      HttpResponse.eraseName
        (convert_pdf_to_word_route keys tempDir uid ⟨hdr, f⟩ eng d0).response := by
  have hexe : convert_pdf_to_docx tempDir uid (renameUpload g f) eng d0 =
      convert_pdf_to_docx tempDir uid f eng d0 := rfl
  simp only [convert_pdf_to_word_route, hexe]
  cases hres : (convert_pdf_to_docx tempDir uid f eng d0).result with
  | error e => exact ⟨rfl, rfl, rfl⟩
  | ok q => exact ⟨rfl, rfl, rfl⟩

theorem images_route_filename (keys : List String) (tempDir uid : String)
    (hdr : Option String) (files : List ImageFile) (eng : I2PEngine) (d0 : Disk) :
    ∀ p m n, (convert_images_to_pdf_route keys tempDir uid hdr files eng d0).response =
        .fileStream p m n → n = "converted_images.pdf" := by
  intro p m n hc
  simp only [convert_images_to_pdf_route] at hc
  cases hres : (convert_images_to_pdf tempDir uid files eng d0).result with
  | error e =>
      rw [hres] at hc
      rcases e with e | ⟨r, s⟩ <;> simp [excToResponse] at hc
  | ok q =>
      rw [hres] at hc
      dsimp only at hc
      rw [HttpResponse.fileStream.injEq] at hc
      exact hc.2.2.symm

/-- C10 (implicit): scratch-storage artifact paths are determined by the
fresh uuid and the configured scratch directory alone, never by the
client-supplied filename: renaming the upload changes nothing in any
executor outcome; every returned artifact path has the fixed
scratch-root-plus-uuid form; and at the route layer the client filename
reaches only the download filename of the response (for images-to-pdf not
even that: the download name is a constant). -/
theorem c10_paths_from_uuid_only (api_keys_list : List String) (tempDir uid : String)
    (g : String → String) (hdr : Option String) (f : UploadFile) (files : List ImageFile)
    (engP : P2DEngine) (engL : LOEngine) (engI : I2PEngine) (engZ : P2IEngine) (d0 : Disk) :
    convert_pdf_to_docx tempDir uid (renameUpload g f) engP d0 =
      convert_pdf_to_docx tempDir uid f engP d0 ∧
    convert_docx_to_pdf tempDir uid (renameUpload g f) engL d0 =
      convert_docx_to_pdf tempDir uid f engL d0 ∧
    convert_images_to_pdf tempDir uid (files.map (renameImageFile g)) engI d0 =
      convert_images_to_pdf tempDir uid files engI d0 ∧
    convert_pdf_to_images_service tempDir uid (renameUpload g f) engZ d0 =
      convert_pdf_to_images_service tempDir uid f engZ d0 ∧
    (∀ p, (convert_pdf_to_docx tempDir uid f engP d0).result = .ok p →
      p = FsPath.joined (FsPath.root tempDir) (uid ++ ".docx")) ∧
    (∀ p, (convert_docx_to_pdf tempDir uid f engL d0).result = .ok p →
      p = expected_pdf_path tempDir uid) ∧
    (∀ p, (convert_pdf_to_images_service tempDir uid f engZ d0).result = .ok p →
      p = FsPath.joined (FsPath.root tempDir) (uid ++ ".zip")) ∧
    (∀ p, (convert_images_to_pdf tempDir uid files engI d0).result = .ok p →
      p = FsPath.joined (FsPath.root tempDir) (uid ++ ".pdf")) ∧
    (convert_pdf_to_word_route api_keys_list tempDir uid ⟨hdr, renameUpload g f⟩ engP d0).disk =
      (convert_pdf_to_word_route api_keys_list tempDir uid ⟨hdr, f⟩ engP d0).disk ∧
    (convert_pdf_to_word_route api_keys_list tempDir uid
        ⟨hdr, renameUpload g f⟩ engP d0).engineCalls =
      (convert_pdf_to_word_route api_keys_list tempDir uid ⟨hdr, f⟩ engP d0).engineCalls ∧
    HttpResponse.eraseName (convert_pdf_to_word_route api_keys_list tempDir uid
        ⟨hdr, renameUpload g f⟩ engP d0).response =
      HttpResponse.eraseName (convert_pdf_to_word_route api_keys_list tempDir uid
        ⟨hdr, f⟩ engP d0).response ∧
    (∀ p m n, (convert_images_to_pdf_route api_keys_list tempDir uid hdr files
        engI d0).response = .fileStream p m n → n = "converted_images.pdf") := by
  obtain ⟨hr1, hr2, hr3⟩ :=
    pdf_to_word_route_rename api_keys_list tempDir uid g hdr f engP d0
  exact ⟨rfl, rfl, convert_images_to_pdf_rename tempDir uid g files engI d0, rfl,
    p2d_ok_path tempDir uid f engP d0, d2p_ok_path tempDir uid f engL d0,
    p2i_ok_path tempDir uid f engZ d0, i2p_ok_path tempDir uid files engI d0,
    hr1, hr2, hr3,
    images_route_filename api_keys_list tempDir uid hdr files engI d0⟩

theorem c10_paths_from_uuid_only_witness :
    convert_pdf_to_docx ("temp_files") ("u7")
        (renameUpload (fun _ => "other.pdf") ⟨"mine.pdf", "application/pdf", "%PDF"⟩)
        ⟨none, none⟩ [] =
      convert_pdf_to_docx ("temp_files") ("u7")
        ⟨"mine.pdf", "application/pdf", "%PDF"⟩ ⟨none, none⟩ [] ∧
    FsPath.joined (FsPath.root ("temp_files")) ("u7.docx") =
      FsPath.joined (FsPath.root ("temp_files")) ("u7" ++ ".docx") := by
  have h := c10_paths_from_uuid_only [] ("temp_files") ("u7") (fun _ => "other.pdf") none
    ⟨"mine.pdf", "application/pdf", "%PDF"⟩ [] ⟨none, none⟩ ⟨none, 0, "", true⟩
    ⟨none, none⟩ ⟨1, none, none, none⟩ []
  exact ⟨h.1, h.2.2.2.2.1 (FsPath.joined (FsPath.root ("temp_files")) ("u7.docx")) (by decide)⟩

theorem pySplitextRoot_docx_cases (uid : String) :
    pySplitextRoot (uid ++ ".docx") = uid ∨
    pySplitextRoot (uid ++ ".docx") = uid ++ ".docx" := by
  have h1 : splitextScan (uid ++ (".docx" : String)).data.reverse = some uid.data.reverse := by
    rw [String.data_append, List.reverse_append]
    exact splitextScan_docx uid.data.reverse
  unfold pySplitextRoot
  rw [h1]
  dsimp only
  by_cases h2 : ((uid.data.reverse.takeWhile (fun c => c ≠ '/')).any (fun c => c ≠ '.')) = true
  · left
    rw [if_pos h2, List.reverse_reverse]
  · right
    rw [if_neg h2]

theorem expected_ne_docx (tempDir uid : String) :
    expected_pdf_path tempDir uid ≠
      FsPath.joined (FsPath.root tempDir) (uid ++ ".docx") := by
  unfold expected_pdf_path
  intro hc
  rw [FsPath.joined.injEq] at hc
  have hlen := congrArg String.length hc.2
  have e1 : (".pdf" : String).length = 4 := by decide
  have e2 : (".docx" : String).length = 5 := by decide
  rcases pySplitextRoot_docx_cases uid with h | h
  · rw [h] at hlen
    simp only [String.length_append, e1, e2] at hlen
    omega
  · rw [h] at hlen
    simp only [String.length_append, e1, e2] at hlen
    omega

theorem d2p_exec_run (tempDir uid : String) (f : UploadFile) (eng : LOEngine) (d0 : Disk)
    (hdocx : FsPath.joined (FsPath.root tempDir) (uid ++ ".docx") ∉ d0)
    (hexp : expected_pdf_path tempDir uid ∉ d0) :
    ((convert_docx_to_pdf tempDir uid f eng d0).result = .ok (expected_pdf_path tempDir uid) ∧
      (convert_docx_to_pdf tempDir uid f eng d0).disk =
        d0 ++ [expected_pdf_path tempDir uid]) ∨
    ((∃ e, (convert_docx_to_pdf tempDir uid f eng d0).result = .error e) ∧
      ((convert_docx_to_pdf tempDir uid f eng d0).disk = d0 ∨
       (convert_docx_to_pdf tempDir uid f eng d0).disk =
        d0 ++ [expected_pdf_path tempDir uid])) := by
  have hne := expected_ne_docx tempDir uid
  have hd1 : Disk.write d0 (FsPath.joined (FsPath.root tempDir) (uid ++ ".docx")) =
      d0 ++ [FsPath.joined (FsPath.root tempDir) (uid ++ ".docx")] := Disk.write_of_not_mem hdocx
  have hdocxmem : FsPath.joined (FsPath.root tempDir) (uid ++ ".docx") ∈
      Disk.write d0 (FsPath.joined (FsPath.root tempDir) (uid ++ ".docx")) :=
    Disk.mem_write_self d0 _
  have hrm1 : Disk.removeFile
      (d0 ++ [FsPath.joined (FsPath.root tempDir) (uid ++ ".docx")])
      (FsPath.joined (FsPath.root tempDir) (uid ++ ".docx")) = d0 := by
    rw [Disk.removeFile_append_single, Disk.removeFile_of_not_mem hdocx]
  have hexp2 : expected_pdf_path tempDir uid ∉
      Disk.write d0 (FsPath.joined (FsPath.root tempDir) (uid ++ ".docx")) := by
    intro hc
    rcases Disk.mem_write_iff.mp hc with hc | hc
    · exact hexp hc
    · exact hne hc
  have hd2 : Disk.write (Disk.write d0 (FsPath.joined (FsPath.root tempDir) (uid ++ ".docx")))
      (expected_pdf_path tempDir uid) =
      (d0 ++ [FsPath.joined (FsPath.root tempDir) (uid ++ ".docx")]) ++
        [expected_pdf_path tempDir uid] := by
    rw [Disk.write_of_not_mem hexp2, hd1]
  have hdocxmem2 : FsPath.joined (FsPath.root tempDir) (uid ++ ".docx") ∈
      Disk.write (Disk.write d0 (FsPath.joined (FsPath.root tempDir) (uid ++ ".docx")))
        (expected_pdf_path tempDir uid) := Disk.mem_write _ _ _ hdocxmem
  have hexpmem2 : expected_pdf_path tempDir uid ∈
      Disk.write (Disk.write d0 (FsPath.joined (FsPath.root tempDir) (uid ++ ".docx")))
        (expected_pdf_path tempDir uid) := Disk.mem_write_self _ _
  have hrm2 : Disk.removeFile
      ((d0 ++ [FsPath.joined (FsPath.root tempDir) (uid ++ ".docx")]) ++
        [expected_pdf_path tempDir uid])
      (FsPath.joined (FsPath.root tempDir) (uid ++ ".docx")) =
      d0 ++ [expected_pdf_path tempDir uid] := by
    rw [removeFile_append, hrm1, removeFile_singleton_ne hne]
  cases hv : validate_docx_file f with
  | error e =>
      right
      constructor
      · exact ⟨.app e, by simp only [convert_docx_to_pdf, hv]⟩
      · left
        simp only [convert_docx_to_pdf, hv]
  | ok u =>
      rcases he : eng.execRaises with _ | ⟨rep, msg⟩
      · -- the subprocess ran to completion
        rcases hcp : eng.createsPdf
        · -- the tool left no output file
          by_cases hrc : eng.returncode ≠ 0
          · right
            constructor
            · simp only [convert_docx_to_pdf, hv, he, hcp, Bool.false_eq_true, if_false]
              rw [if_pos hrc]
              exact ⟨_, rfl⟩
            · left
              simp only [convert_docx_to_pdf, hv, he, hcp, Bool.false_eq_true, if_false]
              rw [if_pos hrc]
              try dsimp only
              rw [if_pos hdocxmem, hd1, hrm1]
          · right
            constructor
            · simp only [convert_docx_to_pdf, hv, he, hcp, Bool.false_eq_true, if_false]
              rw [if_neg hrc]
              try dsimp only
              rw [if_neg hexp2]
              exact ⟨_, rfl⟩
            · left
              simp only [convert_docx_to_pdf, hv, he, hcp, Bool.false_eq_true, if_false]
              rw [if_neg hrc]
              try dsimp only
              rw [if_neg hexp2]
              try dsimp only
              rw [if_pos hdocxmem, hd1, hrm1]
        · -- the tool left the expected output on disk
          by_cases hrc : eng.returncode ≠ 0
          · -- yet reported failure: the output is never cleaned up
            right
            constructor
            · simp only [convert_docx_to_pdf, hv, he, hcp, eq_self_iff_true, if_true]
              rw [if_pos hrc]
              exact ⟨_, rfl⟩
            · right
              simp only [convert_docx_to_pdf, hv, he, hcp, eq_self_iff_true, if_true]
              rw [if_pos hrc]
              try dsimp only
              rw [if_pos hdocxmem2, hd2, hrm2]
          · -- clean success: the output is the result artifact
            left
            constructor
            · simp only [convert_docx_to_pdf, hv, he, hcp, eq_self_iff_true, if_true]
              rw [if_neg hrc]
              try dsimp only
              rw [if_pos hexpmem2]
            · simp only [convert_docx_to_pdf, hv, he, hcp, eq_self_iff_true, if_true]
              rw [if_neg hrc]
              try dsimp only
              rw [if_pos hexpmem2]
              try dsimp only
              rw [if_pos hdocxmem2, hd2, hrm2]
      · -- spawning or communicating raised
        right
        constructor
        · simp only [convert_docx_to_pdf, hv, he]
          exact ⟨_, rfl⟩
        · left
          simp only [convert_docx_to_pdf, hv, he, if_pos hdocxmem]
          rw [hd1, hrm1]

theorem i2p_exec_run (tempDir uid : String) (files : List ImageFile) (eng : I2PEngine)
    (d0 : Disk)
    (hout : FsPath.joined (FsPath.root tempDir) (uid ++ ".pdf") ∉ d0) :
    ((convert_images_to_pdf tempDir uid files eng d0).result =
        .ok (FsPath.joined (FsPath.root tempDir) (uid ++ ".pdf")) ∧
      (convert_images_to_pdf tempDir uid files eng d0).disk =
        d0 ++ [FsPath.joined (FsPath.root tempDir) (uid ++ ".pdf")]) ∨
    ((∃ e, (convert_images_to_pdf tempDir uid files eng d0).result = .error e) ∧
      (convert_images_to_pdf tempDir uid files eng d0).disk = d0) := by
  cases hv : validate_image_files (files.map (fun fl => fl.upload)) with
  | error e =>
      right
      constructor
      · exact ⟨.app e, by simp only [convert_images_to_pdf, hv]⟩
      · simp only [convert_images_to_pdf, hv]
  | ok u =>
      rcases hl : imagesLoop eng.decodeRaises (files.map (fun fl => fl.dims)) 0 []
        with ⟨res, acc⟩
      cases res with
      | error e =>
          right
          constructor
          · simp only [convert_images_to_pdf, hv, hl]
            exact ⟨_, rfl⟩
          · simp only [convert_images_to_pdf, hv, hl]
      | ok w =>
          rcases hs : eng.saveRaises with _ | ⟨rep, msg⟩
          · left
            constructor
            · simp only [convert_images_to_pdf, hv, hl, hs]
            · simp only [convert_images_to_pdf, hv, hl, hs]
              exact Disk.write_of_not_mem hout
          · right
            constructor
            · simp only [convert_images_to_pdf, hv, hl, hs]
              exact ⟨_, rfl⟩
            · simp only [convert_images_to_pdf, hv, hl, hs]

/-- C4 (amended): after a request completes on any of the four conversion
routes, no artifact belonging to it remains on scratch storage, except
transiently the not-yet-delivered success result file (removed by the
BackgroundTask once transmitted), and except two failure leaks that no
code path cleans up: in pdf-to-images the allocated zip remains on disk
when the conversion fails after the archive file was created (a failure
while writing archive entries), and in word-to-pdf the expected output
pdf left behind by the external tool remains on disk when the request
nonetheless fails (for example a non-zero exit after the tool produced
output).  Inputs and intermediates are always removed; pdf-to-word and
images-to-pdf leave the disk unchanged on every outcome. -/
theorem c4_no_leak_except_failed_outputs (api_keys_list : List String)
    (tempDir uid jobId : String) (reqW reqD reqZ : Request) (hdrI : Option String)
    (filesI : List ImageFile) (engP : P2DEngine) (engL : LOEngine) (engI : I2PEngine)
    (engZ : P2IEngine) (d0 : Disk)
    (hpdf : FsPath.joined (FsPath.root tempDir) (uid ++ ".pdf") ∉ d0)
    (hdocx : FsPath.joined (FsPath.root tempDir) (uid ++ ".docx") ∉ d0)
    (hexp : expected_pdf_path tempDir uid ∉ d0)
    (hfresh : ∀ p ∈ d0, FsPath.isUnder (FsPath.joined (FsPath.root tempDir) jobId) p = false)
    (hzfresh : FsPath.joined (FsPath.root tempDir) (jobId ++ ".zip") ∉ d0) :
    (convert_pdf_to_word_route api_keys_list tempDir uid reqW engP d0).disk = d0 ∧
    ((convert_word_to_pdf_route api_keys_list tempDir uid reqD engL d0).disk = d0 ∨
     (convert_word_to_pdf_route api_keys_list tempDir uid reqD engL d0).disk =
       d0 ++ [expected_pdf_path tempDir uid]) ∧
    (∀ p m n, (convert_word_to_pdf_route api_keys_list tempDir uid reqD engL d0).response =
        .fileStream p m n →
      (convert_word_to_pdf_route api_keys_list tempDir uid reqD engL d0).disk = d0) ∧
    (convert_images_to_pdf_route api_keys_list tempDir uid hdrI filesI engI d0).disk = d0 ∧
    ((convert_pdf_to_images_route api_keys_list tempDir jobId reqZ engZ d0).disk = d0 ∨
     (convert_pdf_to_images_route api_keys_list tempDir jobId reqZ engZ d0).disk =
       d0 ++ [FsPath.joined (FsPath.root tempDir) (jobId ++ ".zip")]) ∧
    (∀ p m n, (convert_pdf_to_images_route api_keys_list tempDir jobId reqZ engZ d0).response =
        .fileStream p m n →
      (convert_pdf_to_images_route api_keys_list tempDir jobId reqZ engZ d0).disk = d0) := by
  have hrmexp : Disk.removeFile (d0 ++ [expected_pdf_path tempDir uid])
      (expected_pdf_path tempDir uid) = d0 := by
    rw [Disk.removeFile_append_single, Disk.removeFile_of_not_mem hexp]
  have hrmipdf : Disk.removeFile
      (d0 ++ [FsPath.joined (FsPath.root tempDir) (uid ++ ".pdf")])
      (FsPath.joined (FsPath.root tempDir) (uid ++ ".pdf")) = d0 := by
    rw [Disk.removeFile_append_single, Disk.removeFile_of_not_mem hpdf]
  refine ⟨?_, ?_, ?_, ?_, ?_, ?_⟩
  · -- pdf-to-word: input removed in the finally block, output removed after
    -- transmission, so the disk always returns to its initial state
    rcases p2d_exec_run tempDir uid reqW.file engP d0 hpdf hdocx
      with ⟨hres, hdisk⟩ | ⟨⟨e, hres⟩, hdisk⟩
    · simp only [convert_pdf_to_word_route, hres]
      rw [hdisk, Disk.removeFile_append_single, Disk.removeFile_of_not_mem hdocx]
    · simp only [convert_pdf_to_word_route, hres]
      exact hdisk
  · -- word-to-pdf: at worst the tool-created expected pdf survives a failure
    rcases d2p_exec_run tempDir uid reqD.file engL d0 hdocx hexp
      with ⟨hres, hdisk⟩ | ⟨⟨e, hres⟩, hdisk⟩
    · left
      simp only [convert_word_to_pdf_route, hres]
      rw [hdisk, hrmexp]
    · simp only [convert_word_to_pdf_route, hres]
      exact hdisk
  · -- word-to-pdf success responses leave the disk unchanged
    intro p m n hc
    rcases d2p_exec_run tempDir uid reqD.file engL d0 hdocx hexp
      with ⟨hres, hdisk⟩ | ⟨⟨e, hres⟩, hdisk⟩
    · simp only [convert_word_to_pdf_route, hres]
      rw [hdisk, hrmexp]
    · simp only [convert_word_to_pdf_route, hres] at hc
      exact absurd hc (by rcases e with e2 | ⟨r, s⟩ <;> simp [excToResponse])
  · -- images-to-pdf: no intermediates exist; the single output is removed
    -- after transmission and is never created on a failure
    rcases i2p_exec_run tempDir uid filesI engI d0 hpdf
      with ⟨hres, hdisk⟩ | ⟨⟨e, hres⟩, hdisk⟩
    · simp only [convert_images_to_pdf_route, hres]
      rw [hdisk, hrmipdf]
    · simp only [convert_images_to_pdf_route, hres]
      exact hdisk
  · -- pdf-to-images: at worst the created zip survives a failure
    cases hv : validate_pdf_file reqZ.file with
    | error e =>
        left
        simp only [convert_pdf_to_images_route, convert_pdf_to_images_service, hv]
    | ok u =>
        rcases p2i_task_run tempDir jobId engZ d0 hfresh hzfresh
          with ⟨hres, hdisk⟩ | ⟨⟨det, hres⟩, hdisk⟩
        · left
          simp only [convert_pdf_to_images_route, convert_pdf_to_images_service, hv, hres]
          rw [hdisk, Disk.removeFile_append_single, Disk.removeFile_of_not_mem hzfresh]
        · simp only [convert_pdf_to_images_route, convert_pdf_to_images_service, hv, hres]
          exact hdisk
  · intro p m n hc
    cases hv : validate_pdf_file reqZ.file with
    | error e =>
        simp only [convert_pdf_to_images_route, convert_pdf_to_images_service, hv] at hc
        exact absurd hc (by simp [excToResponse])
    | ok u =>
        rcases p2i_task_run tempDir jobId engZ d0 hfresh hzfresh
          with ⟨hres, hdisk⟩ | ⟨⟨det, hres⟩, hdisk⟩
        · simp only [convert_pdf_to_images_route, convert_pdf_to_images_service, hv, hres]
          rw [hdisk, Disk.removeFile_append_single, Disk.removeFile_of_not_mem hzfresh]
        · simp only [convert_pdf_to_images_route, convert_pdf_to_images_service, hv, hres] at hc
          exact absurd hc (by simp [excToResponse])

theorem c4_no_leak_except_failed_outputs_witness :
    (convert_pdf_to_word_route [] ("temp_files") ("u9")
        ⟨none, ⟨"r.pdf", "application/pdf", "%PDF"⟩⟩ ⟨none, none⟩ []).disk = [] ∧
    ((convert_word_to_pdf_route [] ("temp_files") ("u9")
        ⟨none, ⟨"d.docx", "application/vnd.openxmlformats-officedocument.wordprocessingml.document", "PK"⟩⟩
        ⟨none, 1, "x", true⟩ []).disk = [] ∨
     (convert_word_to_pdf_route [] ("temp_files") ("u9")
        ⟨none, ⟨"d.docx", "application/vnd.openxmlformats-officedocument.wordprocessingml.document", "PK"⟩⟩
        ⟨none, 1, "x", true⟩ []).disk = [] ++ [expected_pdf_path ("temp_files") ("u9")]) ∧
    (convert_images_to_pdf_route [] ("temp_files") ("u9") none
        [⟨⟨"a.png", "image/png", "x"⟩, (10, 10)⟩] ⟨none, none⟩ []).disk = [] ∧
    ((convert_pdf_to_images_route [] ("temp_files") ("j9")
        ⟨none, ⟨"r.pdf", "application/pdf", "%PDF"⟩⟩ ⟨2, none, none, none⟩ []).disk = [] ∨
     (convert_pdf_to_images_route [] ("temp_files") ("j9")
        ⟨none, ⟨"r.pdf", "application/pdf", "%PDF"⟩⟩ ⟨2, none, none, none⟩ []).disk =
       [] ++ [FsPath.joined (FsPath.root ("temp_files")) ("j9.zip")]) := by
  have h := c4_no_leak_except_failed_outputs [] ("temp_files") ("u9") ("j9")
    ⟨none, ⟨"r.pdf", "application/pdf", "%PDF"⟩⟩
    ⟨none, ⟨"d.docx", "application/vnd.openxmlformats-officedocument.wordprocessingml.document", "PK"⟩⟩
    ⟨none, ⟨"r.pdf", "application/pdf", "%PDF"⟩⟩ none
    [⟨⟨"a.png", "image/png", "x"⟩, (10, 10)⟩]
    ⟨none, none⟩ ⟨none, 1, "x", true⟩ ⟨none, none⟩ ⟨2, none, none, none⟩ []
    (by decide) (by decide) (by decide) (by simp) (by decide)
  exact ⟨h.1, h.2.1, h.2.2.2.1, h.2.2.2.2.1⟩
